import Mathlib

/-!
Verification of the SPACO language-processor core against its specification.

The Python sources under `src/language_processor/` are shallowly embedded:
Python floats are modelled as exact rationals (`ℚ`), Python dicts as
association lists in insertion order, Python `None`/dynamic values by the
inductive `PyVal`, fallible code by `Except`, and wall-clock/system
measurements (`time.time()`, `psutil` readings, call latency) as explicit
oracle parameters threaded through the functions that consume them.
-/

namespace Spaco

/- Batteries marks the rational operations `@[irreducible]`; the embedded
code computes with them, so restore the default reducibility for this
file. -/
attribute [local semireducible] Rat.add Rat.sub Rat.mul Rat.inv

/-- A generic Python value (the `Any` occurring in `metadata`, component
values and code-variable values).  Propositional equality on `PyVal`
coincides with Python `==` on all values the theorems below compare
(numbers of one kind, strings, booleans, and nested containers thereof). -/
inductive PyVal where
  | vnone : PyVal
  | vbool (b : Bool) : PyVal
  | vint (n : Int) : PyVal
  | vfloat (q : Rat) : PyVal
  | vstr (s : String) : PyVal
  | vlist (xs : List PyVal) : PyVal
  | vdict (xs : List (String × PyVal)) : PyVal

/-- Python `value == someString` where the right-hand side is a string
literal: true exactly for the equal string (Python string equality never
identifies a string with a non-string). -/
def PyVal.eqStr (v : PyVal) (w : String) : Bool :=
  match v with
  | .vstr s => s = w
  | _ => false

/-- `d.get(k)` on a Python dict, modelled on an association list: first
binding of the key, `None` when absent. -/
def pyGet (d : List (String × PyVal)) (k : String) : PyVal :=
  match d with
  | [] => .vnone
  | (k', v) :: rest => if k' = k then v else pyGet rest k

/-- `k in d` on a Python dict. -/
def pyHasKey (d : List (String × PyVal)) (k : String) : Bool :=
  match d with
  | [] => false
  | (k', _) :: rest => k' = k || pyHasKey rest k

/-- Python `needle in haystack` on strings, on the character lists. -/
def strContains (hay pat : String) : Bool :=
  (List.range (hay.toList.length + 1)).any fun i =>
    pat.toList.isPrefixOf (hay.toList.drop i)

/-- Python `str.lower()` (ASCII case folding suffices for the sources). -/
def pyLower (s : String) : String := s.toLower

/-- Decimal rendering of a non-negative rational, mirroring Python `str`
on a float: integral values get a trailing `.0`, terminating decimals are
printed with their minimal digit count.  A quotient that does not
terminate in decimal (only reachable through the constant-folding `/` in
`_optimize_synth_def`) is cut at 17 fractional digits, approximating the
IEEE-754 shortest repr; no theorem below depends on that corner. -/
def pyFloatStrNN (q : Rat) : String :=
  let n := q.num.toNat
  let d := q.den
  if d = 1 then toString n ++ ".0"
  else
    let k := (((List.range 40).find? fun k => 10 ^ (k + 1) % d = 0).map (· + 1)).getD 17
    let scaled := n * 10 ^ k / d
    let ip := scaled / 10 ^ k
    let fp := scaled % 10 ^ k
    let fs := toString fp
    toString ip ++ "." ++ String.mk (List.replicate (k - fs.length) '0') ++ fs

/-- Python `str` on a float value, with the sign. -/
def pyFloatStr (q : Rat) : String :=
  if q < 0 then "-" ++ pyFloatStrNN (-q) else pyFloatStrNN q

/-- A single-quote character, kept out of string literals. -/
def sq : String := String.singleton (Char.ofNat 39)

/-- An opening brace as a string. -/
def obr : String := String.singleton (Char.ofNat 123)

/-- A closing brace as a string. -/
def cbr : String := String.singleton (Char.ofNat 125)

/-- Python `repr`, as used by `str` on containers. -/
def pyRepr : PyVal → String
  | .vnone => "None"
  | .vbool b => if b then "True" else "False"
  | .vint n => toString n
  | .vfloat q => pyFloatStr q
  | .vstr s => sq ++ s ++ sq
  | .vlist xs => "[" ++ String.intercalate ", " (xs.attach.map fun x => pyRepr x.1) ++ "]"
  | .vdict xs =>
      obr ++ String.intercalate ", "
        (xs.attach.map fun e => sq ++ e.1.1 ++ sq ++ ": " ++ pyRepr e.1.2) ++ cbr
termination_by v => sizeOf v
decreasing_by
  · have := List.sizeOf_lt_of_mem x.2
    simp at this ⊢
    omega
  · obtain ⟨⟨k, v⟩, hm⟩ := e
    have := List.sizeOf_lt_of_mem hm
    simp at this ⊢
    omega

/-- Python `str` on an arbitrary value. -/
def pyStr : PyVal → String
  | .vnone => "None"
  | .vbool b => if b then "True" else "False"
  | .vint n => toString n
  | .vfloat q => pyFloatStr q
  | .vstr s => s
  | .vlist xs => pyRepr (.vlist xs)
  | .vdict xs => pyRepr (.vdict xs)

/-- `IntentType` from `intent_level.py`. -/
inductive IntentType where
  | GENERATE_SOUND | GENERATE_INSTRUMENT | GENERATE_EFFECT | GENERATE_AMBIENT
  | CREATE_MELODY | CREATE_CHORD | CREATE_RHYTHM | CREATE_SEQUENCE
  | APPLY_EFFECT | MODIFY_SOUND
  | CONTROL_PLAYBACK | ADJUST_PARAMETER
  | UNKNOWN | COMPLEX
deriving DecidableEq

/-- The `.name` of an `IntentType` member. -/
def IntentType.name : IntentType → String
  | .GENERATE_SOUND => "GENERATE_SOUND"
  | .GENERATE_INSTRUMENT => "GENERATE_INSTRUMENT"
  | .GENERATE_EFFECT => "GENERATE_EFFECT"
  | .GENERATE_AMBIENT => "GENERATE_AMBIENT"
  | .CREATE_MELODY => "CREATE_MELODY"
  | .CREATE_CHORD => "CREATE_CHORD"
  | .CREATE_RHYTHM => "CREATE_RHYTHM"
  | .CREATE_SEQUENCE => "CREATE_SEQUENCE"
  | .APPLY_EFFECT => "APPLY_EFFECT"
  | .MODIFY_SOUND => "MODIFY_SOUND"
  | .CONTROL_PLAYBACK => "CONTROL_PLAYBACK"
  | .ADJUST_PARAMETER => "ADJUST_PARAMETER"
  | .UNKNOWN => "UNKNOWN"
  | .COMPLEX => "COMPLEX"

/-- `IntentType[s]` with the `KeyError → UNKNOWN` handler of
`IntentLevel.from_dict`. -/
def IntentType.ofName (s : String) : IntentType :=
  if s = "GENERATE_SOUND" then .GENERATE_SOUND
  else if s = "GENERATE_INSTRUMENT" then .GENERATE_INSTRUMENT
  else if s = "GENERATE_EFFECT" then .GENERATE_EFFECT
  else if s = "GENERATE_AMBIENT" then .GENERATE_AMBIENT
  else if s = "CREATE_MELODY" then .CREATE_MELODY
  else if s = "CREATE_CHORD" then .CREATE_CHORD
  else if s = "CREATE_RHYTHM" then .CREATE_RHYTHM
  else if s = "CREATE_SEQUENCE" then .CREATE_SEQUENCE
  else if s = "APPLY_EFFECT" then .APPLY_EFFECT
  else if s = "MODIFY_SOUND" then .MODIFY_SOUND
  else if s = "CONTROL_PLAYBACK" then .CONTROL_PLAYBACK
  else if s = "ADJUST_PARAMETER" then .ADJUST_PARAMETER
  else if s = "COMPLEX" then .COMPLEX
  else .UNKNOWN

/-- `StructureType` from `structure_level.py`. -/
inductive StructureType where
  | SYNTH_DEF | FUNCTION
  | PATTERN | PBIND
  | EFFECT_CHAIN | EFFECT_NODE
  | NODE_GRAPH | BUS
  | ENVELOPE | CONTROL_RATE
  | COMPOSITE
  | CUSTOM | UNKNOWN
deriving DecidableEq

/-- The `.name` of a `StructureType` member. -/
def StructureType.name : StructureType → String
  | .SYNTH_DEF => "SYNTH_DEF"
  | .FUNCTION => "FUNCTION"
  | .PATTERN => "PATTERN"
  | .PBIND => "PBIND"
  | .EFFECT_CHAIN => "EFFECT_CHAIN"
  | .EFFECT_NODE => "EFFECT_NODE"
  | .NODE_GRAPH => "NODE_GRAPH"
  | .BUS => "BUS"
  | .ENVELOPE => "ENVELOPE"
  | .CONTROL_RATE => "CONTROL_RATE"
  | .COMPOSITE => "COMPOSITE"
  | .CUSTOM => "CUSTOM"
  | .UNKNOWN => "UNKNOWN"

/-- `StructureType[s]` with the `KeyError → UNKNOWN` handler of
`StructureLevel.from_dict`. -/
def StructureType.ofName (s : String) : StructureType :=
  if s = "SYNTH_DEF" then .SYNTH_DEF
  else if s = "FUNCTION" then .FUNCTION
  else if s = "PATTERN" then .PATTERN
  else if s = "PBIND" then .PBIND
  else if s = "EFFECT_CHAIN" then .EFFECT_CHAIN
  else if s = "EFFECT_NODE" then .EFFECT_NODE
  else if s = "NODE_GRAPH" then .NODE_GRAPH
  else if s = "BUS" then .BUS
  else if s = "ENVELOPE" then .ENVELOPE
  else if s = "CONTROL_RATE" then .CONTROL_RATE
  else if s = "COMPOSITE" then .COMPOSITE
  else if s = "CUSTOM" then .CUSTOM
  else .UNKNOWN

/-- `CodeType` from `code_level.py`. -/
inductive CodeType where
  | SYNTH | PATTERN | EFFECT | SEQUENCE | SYNTHDEF | CONTROL
  | ROUTINE | TASK | SERVER | FUNCTION | COMPOSITE | CUSTOM | UNKNOWN
deriving DecidableEq

/-- The `.name` of a `CodeType` member. -/
def CodeType.name : CodeType → String
  | .SYNTH => "SYNTH"
  | .PATTERN => "PATTERN"
  | .EFFECT => "EFFECT"
  | .SEQUENCE => "SEQUENCE"
  | .SYNTHDEF => "SYNTHDEF"
  | .CONTROL => "CONTROL"
  | .ROUTINE => "ROUTINE"
  | .TASK => "TASK"
  | .SERVER => "SERVER"
  | .FUNCTION => "FUNCTION"
  | .COMPOSITE => "COMPOSITE"
  | .CUSTOM => "CUSTOM"
  | .UNKNOWN => "UNKNOWN"

/-- `CodeType[s]` with the `KeyError → UNKNOWN` handler of
`CodeLevel.from_dict`. -/
def CodeType.ofName (s : String) : CodeType :=
  if s = "SYNTH" then .SYNTH
  else if s = "PATTERN" then .PATTERN
  else if s = "EFFECT" then .EFFECT
  else if s = "SEQUENCE" then .SEQUENCE
  else if s = "SYNTHDEF" then .SYNTHDEF
  else if s = "CONTROL" then .CONTROL
  else if s = "ROUTINE" then .ROUTINE
  else if s = "TASK" then .TASK
  else if s = "SERVER" then .SERVER
  else if s = "FUNCTION" then .FUNCTION
  else if s = "COMPOSITE" then .COMPOSITE
  else if s = "CUSTOM" then .CUSTOM
  else .UNKNOWN

/-- A raised `ValidationError` (`base.py`): only the `level` and `field`
attributes are modelled, the human-readable message is not. -/
structure ValErr where
  level : Option String
  field : Option String
deriving DecidableEq

/-- `v is None` in Python. -/
def PyVal.isNone : PyVal → Bool
  | .vnone => true
  | _ => false

/-- First binding of a key in a dict, `Option`-valued (distinguishes a key
bound to `None` from an absent key, as Python `dict.get` does). -/
def pyFind (d : List (String × PyVal)) (k : String) : Option PyVal :=
  match d with
  | [] => none
  | (k', v) :: rest => if k' = k then some v else pyFind rest k

/-- `d.get(k, dflt)` on a Python dict. -/
def pyGetD (d : List (String × PyVal)) (k : String) (dflt : PyVal) : PyVal :=
  (pyFind d k).getD dflt

/-!
## IR data model (`intent_level.py`, `parameter_level.py`,
`structure_level.py`, `code_level.py`)

Python's dynamic fields are narrowed to the types that `validate`
enforces (or that `from_dict` produces); dicts are association lists in
insertion order.  The `_is_valid` memo flag of `RepresentationLevel` is
not modelled: every claim below observes `validate`/`is_valid` on
freshly constructed instances, where the flag is stale-free.
-/

/-- `IntentLevel`. -/
structure IntentLevel where
  intent_type : IntentType
  description : String
  metadata : List (String × PyVal)
  confidence : Rat

/-- `IntentLevel.validate`: the `isinstance` checks hold by typing; the
emptiness and range checks are explicit. -/
def IntentLevel.validate (i : IntentLevel) : Except ValErr Unit :=
  if i.description = "" then .error ⟨some "IntentLevel", some "description"⟩
  else if 0 ≤ i.confidence ∧ i.confidence ≤ 1 then .ok ()
  else .error ⟨some "IntentLevel", some "confidence"⟩

/-- `IntentLevel.to_dict`. -/
def IntentLevel.to_dict (i : IntentLevel) : List (String × PyVal) :=
  [("intent_type", .vstr i.intent_type.name),
   ("description", .vstr i.description),
   ("metadata", .vdict i.metadata),
   ("confidence", .vfloat i.confidence)]

/-- `IntentLevel.from_dict`.  A present value of an unexpected dynamic
type is narrowed to the corresponding `data.get` default (for
`intent_type` this is exactly the source's `TypeError → UNKNOWN`
handler). -/
def IntentLevel.from_dict (d : List (String × PyVal)) : IntentLevel where
  intent_type := match pyFind d "intent_type" with
    | some (.vstr s) => IntentType.ofName s
    | _ => .UNKNOWN
  description := match pyFind d "description" with
    | some (.vstr s) => s
    | _ => ""
  metadata := match pyFind d "metadata" with
    | some (.vdict m) => m
    | _ => []
  confidence := match pyFind d "confidence" with
    | some (.vfloat q) => q
    | some (.vint n) => (n : Rat)
    | _ => 1

/-- `ParameterValue`. -/
structure ParameterValue where
  value_type : String
  value : PyVal
  unit : Option String
  min_value : Option Rat
  max_value : Option Rat
  metadata : List (String × PyVal)

/-- `ParameterValue.validate`. -/
def ParameterValue.validate (p : ParameterValue) : Except ValErr Unit :=
  if p.value_type = "" then .error ⟨none, some "value_type"⟩
  else if p.value.isNone then .error ⟨none, some "value"⟩
  else if p.value_type = "range" then
    match p.min_value, p.max_value with
    | some mn, some mx =>
        if mn > mx then .error ⟨none, some "min_value/max_value"⟩ else .ok ()
    | _, _ => .error ⟨none, some "min_value/max_value"⟩
  else .ok ()

/-- `ParameterValue.to_dict`: `unit` is included only when truthy (a
present-but-empty unit string is dropped), `min_value`/`max_value` only
when not `None`, `metadata` only when non-empty. -/
def ParameterValue.to_dict (p : ParameterValue) : PyVal :=
  .vdict (
    [("value_type", .vstr p.value_type), ("value", p.value)]
    ++ (match p.unit with
        | some u => if u = "" then [] else [("unit", .vstr u)]
        | none => [])
    ++ (match p.min_value with
        | some m => [("min_value", .vfloat m)]
        | none => [])
    ++ (match p.max_value with
        | some m => [("max_value", .vfloat m)]
        | none => [])
    ++ (if p.metadata.isEmpty then [] else [("metadata", .vdict p.metadata)]))

/-- `ParameterValue.from_dict`. -/
def ParameterValue.from_dict (d : List (String × PyVal)) : ParameterValue where
  value_type := match pyFind d "value_type" with
    | some (.vstr s) => s
    | _ => "static"
  value := pyGetD d "value" .vnone
  unit := match pyFind d "unit" with
    | some (.vstr s) => some s
    | _ => none
  min_value := match pyFind d "min_value" with
    | some (.vfloat q) => some q
    | some (.vint n) => some (n : Rat)
    | _ => none
  max_value := match pyFind d "max_value" with
    | some (.vfloat q) => some q
    | some (.vint n) => some (n : Rat)
    | _ => none
  metadata := match pyFind d "metadata" with
    | some (.vdict m) => m
    | _ => []

/-- `ParameterLevel`. -/
structure ParameterLevel where
  parameters : List (String × ParameterValue)
  source_intent : Option String

/-- Validation of the parameter map, in insertion order, re-raising the
first failure with the enclosing level and field path. -/
def validateParamEntries : List (String × ParameterValue) → Except ValErr Unit
  | [] => .ok ()
  | (n, v) :: rest =>
      match v.validate with
      | .error _ => .error ⟨some "ParameterLevel", some ("parameters." ++ n)⟩
      | .ok _ => validateParamEntries rest

/-- `ParameterLevel.validate`. -/
def ParameterLevel.validate (pl : ParameterLevel) : Except ValErr Unit :=
  if pl.parameters.isEmpty then .error ⟨some "ParameterLevel", some "parameters"⟩
  else validateParamEntries pl.parameters

/-- `ParameterLevel.to_dict`: `source_intent` is included only when
truthy. -/
def ParameterLevel.to_dict (pl : ParameterLevel) : List (String × PyVal) :=
  [("parameters", .vdict (pl.parameters.map fun nv => (nv.1, nv.2.to_dict)))]
  ++ (match pl.source_intent with
      | some s => if s = "" then [] else [("source_intent", .vstr s)]
      | none => [])

/-- `ParameterLevel.from_dict`. -/
def ParameterLevel.from_dict (d : List (String × PyVal)) : ParameterLevel where
  parameters := match pyFind d "parameters" with
    | some (.vdict m) =>
        m.map fun nv =>
          (nv.1, ParameterValue.from_dict (match nv.2 with | .vdict e => e | _ => []))
    | _ => []
  source_intent := match pyFind d "source_intent" with
    | some (.vstr s) => some s
    | _ => none

/-- `StructureComponent`. -/
structure StructureComponent where
  component_type : String
  name : String
  value : PyVal
  metadata : List (String × PyVal)

/-- `StructureComponent.validate`. -/
def StructureComponent.validate (c : StructureComponent) : Except ValErr Unit :=
  if c.component_type = "" then .error ⟨none, some "component_type"⟩
  else if c.name = "" then .error ⟨none, some "name"⟩
  else if c.value.isNone then .error ⟨none, some "value"⟩
  else .ok ()

/-- `StructureComponent.to_dict`. -/
def StructureComponent.to_dict (c : StructureComponent) : PyVal :=
  .vdict (
    [("component_type", .vstr c.component_type),
     ("name", .vstr c.name),
     ("value", c.value)]
    ++ (if c.metadata.isEmpty then [] else [("metadata", .vdict c.metadata)]))

/-- `StructureComponent.from_dict`. -/
def StructureComponent.from_dict (d : List (String × PyVal)) : StructureComponent where
  component_type := match pyFind d "component_type" with
    | some (.vstr s) => s
    | _ => "unknown"
  name := match pyFind d "name" with
    | some (.vstr s) => s
    | _ => ""
  value := pyGetD d "value" .vnone
  metadata := match pyFind d "metadata" with
    | some (.vdict m) => m
    | _ => []

/-- `StructureLevel`.  A connection is an (output name, input name)
pair. -/
structure StructureLevel where
  structure_type : StructureType
  components : List (String × StructureComponent)
  connections : List (String × String)
  source_parameters : List String
  metadata : List (String × PyVal)

/-- Validation of the component map in insertion order. -/
def validateComponentEntries : List (String × StructureComponent) → Except ValErr Unit
  | [] => .ok ()
  | (n, c) :: rest =>
      match c.validate with
      | .error _ => .error ⟨some "StructureLevel", some ("components." ++ n)⟩
      | .ok _ => validateComponentEntries rest

/-- Validation of the connection list: each endpoint must name an
existing component, output checked before input. -/
def validateConnectionEntries (keys : List String) :
    List (String × String) → Except ValErr Unit
  | [] => .ok ()
  | (o, i) :: rest =>
      if ¬ keys.contains o then .error ⟨some "StructureLevel", some "connections"⟩
      else if ¬ keys.contains i then .error ⟨some "StructureLevel", some "connections"⟩
      else validateConnectionEntries keys rest

/-- `StructureLevel.validate`. -/
def StructureLevel.validate (s : StructureLevel) : Except ValErr Unit :=
  if s.components.isEmpty ∧ s.structure_type ≠ .CUSTOM ∧ s.structure_type ≠ .UNKNOWN then
    .error ⟨some "StructureLevel", some "components"⟩
  else
    match validateComponentEntries s.components with
    | .error e => .error e
    | .ok _ => validateConnectionEntries (s.components.map (·.1)) s.connections

/-- `StructureLevel.to_dict`: connection tuples are modelled as
two-element lists. -/
def StructureLevel.to_dict (s : StructureLevel) : List (String × PyVal) :=
  [("structure_type", .vstr s.structure_type.name),
   ("components", .vdict (s.components.map fun nc => (nc.1, nc.2.to_dict))),
   ("connections", .vlist (s.connections.map fun oi => .vlist [.vstr oi.1, .vstr oi.2])),
   ("source_parameters", .vlist (s.source_parameters.map .vstr))]
  ++ (if s.metadata.isEmpty then [] else [("metadata", .vdict s.metadata)])

/-- `StructureLevel.from_dict`. -/
def StructureLevel.from_dict (d : List (String × PyVal)) : StructureLevel where
  structure_type := match pyFind d "structure_type" with
    | some (.vstr s) => StructureType.ofName s
    | _ => .UNKNOWN
  components := match pyFind d "components" with
    | some (.vdict m) =>
        m.map fun nc =>
          (nc.1, StructureComponent.from_dict (match nc.2 with | .vdict e => e | _ => []))
    | _ => []
  connections := match pyFind d "connections" with
    | some (.vlist l) =>
        l.filterMap fun t => match t with
          | .vlist [.vstr a, .vstr b] => some (a, b)
          | _ => none
    | _ => []
  source_parameters := match pyFind d "source_parameters" with
    | some (.vlist l) =>
        l.filterMap fun t => match t with
          | .vstr a => some a
          | _ => none
    | _ => []
  metadata := match pyFind d "metadata" with
    | some (.vdict m) => m
    | _ => []

/-- `CodeVariable`. -/
structure CodeVariable where
  name : String
  value : PyVal
  var_type : Option String
  is_literal : Bool
  metadata : List (String × PyVal)

/-- `CodeVariable.to_code`: a literal string renders quoted, a literal
boolean lowercased, any other literal through `str`; a non-literal
renders as the variable's own name. -/
def CodeVariable.to_code (v : CodeVariable) : String :=
  if v.is_literal then
    match v.value with
    | .vstr s => "\"" ++ s ++ "\""
    | .vbool b => if b then "true" else "false"
    | x => pyStr x
  else v.name

/-- `CodeVariable.to_dict`: `var_type` is included only when truthy,
`metadata` only when non-empty. -/
def CodeVariable.to_dict (v : CodeVariable) : PyVal :=
  .vdict (
    [("name", .vstr v.name), ("value", v.value), ("is_literal", .vbool v.is_literal)]
    ++ (match v.var_type with
        | some t => if t = "" then [] else [("var_type", .vstr t)]
        | none => [])
    ++ (if v.metadata.isEmpty then [] else [("metadata", .vdict v.metadata)]))

/-- `CodeVariable.from_dict`. -/
def CodeVariable.from_dict (d : List (String × PyVal)) : CodeVariable where
  name := match pyFind d "name" with
    | some (.vstr s) => s
    | _ => ""
  value := pyGetD d "value" .vnone
  var_type := match pyFind d "var_type" with
    | some (.vstr s) => some s
    | _ => none
  is_literal := match pyFind d "is_literal" with
    | some (.vbool b) => b
    | _ => false
  metadata := match pyFind d "metadata" with
    | some (.vdict m) => m
    | _ => []

/-- `CodeLevel`.  The source field `variables` is a reserved word in
Lean 4 and is embedded as `vars`. -/
structure CodeLevel where
  code_type : CodeType
  template : String
  vars : List (String × CodeVariable)
  source_structure : Option String
  metadata : List (String × PyVal)

/-- `CodeLevel.to_dict`: `source_structure` is included only when truthy,
`metadata` only when non-empty. -/
def CodeLevel.to_dict (c : CodeLevel) : List (String × PyVal) :=
  [("code_type", .vstr c.code_type.name),
   ("template", .vstr c.template),
   ("variables", .vdict (c.vars.map fun nv => (nv.1, nv.2.to_dict)))]
  ++ (match c.source_structure with
      | some s => if s = "" then [] else [("source_structure", .vstr s)]
      | none => [])
  ++ (if c.metadata.isEmpty then [] else [("metadata", .vdict c.metadata)])

/-- `CodeLevel.from_dict`. -/
def CodeLevel.from_dict (d : List (String × PyVal)) : CodeLevel where
  code_type := match pyFind d "code_type" with
    | some (.vstr s) => CodeType.ofName s
    | _ => .UNKNOWN
  template := match pyFind d "template" with
    | some (.vstr s) => s
    | _ => ""
  vars := match pyFind d "variables" with
    | some (.vdict m) =>
        m.map fun nv =>
          (nv.1, CodeVariable.from_dict (match nv.2 with | .vdict e => e | _ => []))
    | _ => []
  source_structure := match pyFind d "source_structure" with
    | some (.vstr s) => some s
    | _ => none
  metadata := match pyFind d "metadata" with
    | some (.vdict m) => m
    | _ => []

/-- The opening-brace character. -/
def obrC : Char := Char.ofNat 123

/-- The closing-brace character. -/
def cbrC : Char := Char.ofNat 125

/-- A regex `\w` character.  The repository's placeholders are all ASCII;
`\w` is modelled as ASCII alphanumerics plus underscore. -/
def isWordChar (c : Char) : Bool := c.isAlpha || c.isDigit || c = Char.ofNat 95

/-- The scan loop of `re.findall` for the pattern matching a brace, one
or more word characters, and a closing brace: non-overlapping matches
left to right, greedy word run, advancing one character on failure.  The
fuel argument bounds recursion and never runs out when it starts at the
character count. -/
def findPhGo (fuel : Nat) (cs : List Char) : List String :=
  match fuel, cs with
  | 0, _ => []
  | _, [] => []
  | f + 1, c :: rest =>
      if c = obrC then
        if (rest.takeWhile isWordChar).isEmpty then findPhGo f rest
        else
          match rest.drop (rest.takeWhile isWordChar).length with
          | c2 :: tail =>
              if c2 = cbrC then String.mk (rest.takeWhile isWordChar) :: findPhGo f tail
              else findPhGo f rest
          | [] => findPhGo f rest
      else findPhGo f rest

/-- `re.findall` of the placeholder pattern over a template
(`CodeLevel.validate`, line 185 of `code_level.py`). -/
def findPlaceholders (tpl : String) : List String :=
  findPhGo tpl.toList.length tpl.toList

/-- `CodeLevel.validate`: the type checks hold by typing; the template
must be non-empty and every placeholder name must be a variable name. -/
def CodeLevel.validate (c : CodeLevel) : Except ValErr Unit :=
  if c.template = "" then .error ⟨some "CodeLevel", some "template"⟩
  else if (findPlaceholders c.template).all (fun p => (c.vars.map (·.1)).contains p) then
    .ok ()
  else .error ⟨some "CodeLevel", some "variables"⟩

/-- `is_valid` on a freshly constructed instance: true exactly when
`validate` does not raise. -/
def CodeLevel.is_valid (c : CodeLevel) : Bool :=
  match c.validate with
  | .ok _ => true
  | .error _ => false

/-- The loop of Python `str.replace` for a non-empty pattern:
non-overlapping occurrences replaced left to right.  Fuel-driven so the
definition reduces in the kernel; fuel starting at the string length
never runs out. -/
def replaceGo (pat rep : List Char) : Nat → List Char → List Char
  | _, [] => []
  | 0, s => s
  | fuel + 1, c :: rest =>
      if pat.isPrefixOf (c :: rest) then
        rep ++ replaceGo pat rep fuel ((c :: rest).drop pat.length)
      else c :: replaceGo pat rep fuel rest

/-- Python `s.replace(pat, rep)`.  The empty-pattern case (never reached:
every placeholder has the form of a braced non-empty name) is the
identity here. -/
def pyReplace (s pat rep : String) : String :=
  if pat.toList.isEmpty then s
  else String.mk (replaceGo pat.toList rep.toList s.toList.length s.toList)

/-- `CodeLevel.to_code`: validation first (a validation failure
propagates out of `is_valid()`), then each variable's placeholder is
replaced by its rendering, sequentially in variable-map insertion
order. -/
def CodeLevel.to_code (c : CodeLevel) : Except ValErr String :=
  match c.validate with
  | .error e => .error e
  | .ok _ =>
      .ok (c.vars.foldl
        (fun acc nv => pyReplace acc (obr ++ nv.1 ++ cbr) nv.2.to_code)
        c.template)

/-!
## Conversion stages (`converter.py`)

`BaseConverter.convert` calls `_validate_input` outside its
`try`/`except`, so an invalid input escapes as the raw
`ValidationError`; exceptions inside `_convert_impl` are wrapped into
`ConversionError`.  Both outcomes are modelled by `ConvErr`.
-/

/-- An error escaping a `convert` call: either the input's raw
`ValidationError`, or a `ConversionError` carrying the source and target
level names. -/
inductive ConvErr where
  | validation (e : ValErr)
  | conversion (source_level target_level : Option String)
deriving DecidableEq

/-- `intent.metadata` values and component values are numbers when the
source does arithmetic or comparisons on them; a Python `TypeError` on a
non-number is modelled by `none` here (and wrapped into a
`ConversionError` by the caller). -/
def PyVal.asNum : PyVal → Option Rat
  | .vbool b => some (if b then 1 else 0)
  | .vint n => some (n : Rat)
  | .vfloat q => some q
  | _ => none

/-- `ParameterLevel.has_parameter`. -/
def ParameterLevel.has_parameter (pl : ParameterLevel) (n : String) : Bool :=
  pl.parameters.any (·.1 = n)

/-- First binding of a name in an association list of parameters. -/
def assocFind {α : Type} (l : List (String × α)) (n : String) : Option α :=
  match l with
  | [] => none
  | (k, v) :: rest => if k = n then some v else assocFind rest n

/-- `ParameterLevel.get_parameter`. -/
def ParameterLevel.get_parameter (pl : ParameterLevel) (n : String) : Option ParameterValue :=
  assocFind pl.parameters n

/-- The `.value` of a parameter, `None` when the parameter is absent
(the source only reads it behind a `has_parameter` guard). -/
def ParameterLevel.paramValue (pl : ParameterLevel) (n : String) : PyVal :=
  match pl.get_parameter n with
  | some p => p.value
  | none => .vnone

/-- The per-intent-type default parameter table of
`IntentToParameterConverter.__init__`, kept as the nested dict form the
source builds `ParameterValue`s from. -/
def defaultParameters : List (IntentType × List (String × List (String × PyVal))) :=
  [(.GENERATE_SOUND,
     [("frequency", [("value", .vfloat 440), ("unit", .vstr "Hz")]),
      ("amplitude", [("value", .vfloat (1/2))]),
      ("duration", [("value", .vfloat 1), ("unit", .vstr "s")])]),
   (.GENERATE_INSTRUMENT,
     [("instrument_type", [("value", .vstr "piano")]),
      ("note", [("value", .vstr "A4")]),
      ("velocity", [("value", .vfloat (7/10))]),
      ("duration", [("value", .vfloat 1), ("unit", .vstr "s")])]),
   (.APPLY_EFFECT,
     [("effect_type", [("value", .vstr "reverb")]),
      ("mix", [("value", .vfloat (1/2))]),
      ("depth", [("value", .vfloat (1/2))])])]

/-- The `ParameterValue(param_data.get(...), ...)` construction of
`IntentToParameterConverter._convert_impl` — field for field the same
`.get` defaults as `ParameterValue.from_dict`. -/
def paramValueOfData (d : List (String × PyVal)) : ParameterValue :=
  ParameterValue.from_dict d

/-- The extracted-parameter loop: every entry of
`metadata["extracted_parameters"]` must be a dict (a non-dict raises in
the source and becomes a wrapped `ConversionError`). -/
def extractedParams (entries : List (String × PyVal)) :
    Except ConvErr (List (String × ParameterValue)) :=
  match entries with
  | [] => .ok []
  | (n, .vdict d) :: rest =>
      match extractedParams rest with
      | .ok tl => .ok ((n, paramValueOfData d) :: tl)
      | .error e => .error e
  | (_, _) :: _ => .error (.conversion (some "IntentLevel") none)

/-- The waveform inferred from the intent description by the keyword
scan of `IntentToParameterConverter._convert_impl` (first match wins,
`sine` as the default). -/
def inferWaveform (description : String) : String :=
  let low := pyLower description
  if strContains low "sine" || strContains description "正弦波" then "sine"
  else if strContains low "saw" || strContains description "ノコギリ波" then "saw"
  else if strContains low "square" || strContains description "矩形波" then "square"
  else if strContains low "triangle" || strContains description "三角波" then "triangle"
  else "sine"

/-- `IntentToParameterConverter._convert_impl` with its default-parameter
table as an explicit argument. -/
def intentToParameterImpl
    (defaults : List (IntentType × List (String × List (String × PyVal))))
    (intent : IntentLevel) : Except ConvErr ParameterLevel :=
  let existing :=
    match pyFind intent.metadata "extracted_parameters" with
    | none => Except.ok []
    | some (.vdict entries) => extractedParams entries
    | some _ => Except.error (.conversion (some "IntentLevel") none)
  match existing with
  | .error e => .error e
  | .ok existing =>
      let params0 := existing
      let defaultTable := ((defaults.find? fun td => td.1 = intent.intent_type).map (·.2)).getD []
      let params1 := defaultTable.foldl
        (fun acc nd => if acc.any (·.1 = nd.1) then acc else acc ++ [(nd.1, paramValueOfData nd.2)])
        params0
      let params2 :=
        if ¬ (params1.any (·.1 = "waveform")) ∧ intent.intent_type = .GENERATE_SOUND then
          params1 ++
            [("waveform", ParameterValue.mk "static" (.vstr (inferWaveform intent.description))
              none none none [])]
        else params1
      .ok ⟨params2, some intent.intent_type.name⟩

/-- `IntentLevel.is_valid` as a boolean. -/
def IntentLevel.is_valid (i : IntentLevel) : Bool :=
  match i.validate with
  | .ok _ => true
  | .error _ => false

/-- `IntentToParameterConverter.convert` (via `BaseConverter.convert`):
input validation, then the conversion body. -/
def intentToParameterConvert (intent : IntentLevel) : Except ConvErr ParameterLevel :=
  match intent.validate with
  | .error e => .error (.validation e)
  | .ok _ => intentToParameterImpl defaultParameters intent

/-- A structure template of `ParameterToStructureConverter`: the
`required_params`/`optional_params` sets are kept as duplicate-free
lists (only membership and cardinality are used), and the optional
discriminating entries `waveform`/`effect_type` as options. -/
structure STemplate where
  structure_type : StructureType
  required_params : List String
  optional_params : List String
  waveform : Option String
  effect_type : Option String

/-- The default `structure_templates` registry, in registration order. -/
def structureTemplates : List (String × STemplate) :=
  [("basic_sine",
     ⟨.SYNTH_DEF, ["frequency", "amplitude", "duration"], ["phase"], some "sine", none⟩),
   ("basic_saw",
     ⟨.SYNTH_DEF, ["frequency", "amplitude", "duration"], ["phase"], some "saw", none⟩),
   ("pad_sound",
     ⟨.SYNTH_DEF, ["frequency", "amplitude"], ["attack", "decay", "sustain", "release"],
      some "pad", none⟩),
   ("effect_reverb",
     ⟨.EFFECT_CHAIN, ["mix", "room"], ["damp", "input_sound"], none, some "reverb"⟩)]

/-- Template eligibility in `_select_template`: every required parameter
present, and each declared discriminating parameter equal to the input's
value whenever the input carries that parameter. -/
def eligibleTemplate (pl : ParameterLevel) (t : STemplate) : Bool :=
  t.required_params.all (fun r => pl.has_parameter r)
  && (match t.waveform with
      | some w =>
          if pl.has_parameter "waveform" then (pl.paramValue "waveform").eqStr w else true
      | none => true)
  && (match t.effect_type with
      | some e =>
          if pl.has_parameter "effect_type" then (pl.paramValue "effect_type").eqStr e else true
      | none => true)

/-- The score of an eligible template in `_select_template`:
`len(required_params) + len(optional_params ∩ param_names)`. -/
def templateScore (pl : ParameterLevel) (t : STemplate) : Nat :=
  t.required_params.length + (t.optional_params.filter (fun o => pl.has_parameter o)).length

/-- The selection loop of `_select_template`, carrying the best score
(initially `-1`) and the best match; a strictly greater score replaces
the best, so the first-registered template wins ties. -/
def selectTemplateGo (pl : ParameterLevel) :
    List (String × STemplate) → Int → Option (String × STemplate) → Option (String × STemplate)
  | [], _, best => best
  | (n, t) :: rest, bestScore, best =>
      if eligibleTemplate pl t then
        if (templateScore pl t : Int) > bestScore then
          selectTemplateGo pl rest (templateScore pl t) (some (n, t))
        else selectTemplateGo pl rest bestScore best
      else selectTemplateGo pl rest bestScore best

/-- `ParameterToStructureConverter._select_template` over an explicit
registry. -/
def selectTemplate (reg : List (String × STemplate)) (pl : ParameterLevel) :
    Option (String × STemplate) :=
  selectTemplateGo pl reg (-1) none

/-- `StructureComponent(component_type, name, value)` with the default
empty metadata. -/
def mkComponent (ty nm : String) (v : PyVal) : StructureComponent :=
  ⟨ty, nm, v, []⟩

/-- The `value - 0.02 if value > 0.02 else 0.01` sustain derived from a
bare duration parameter; a non-numeric duration raises in the source. -/
def sustainOfDuration (v : PyVal) : Except ConvErr PyVal :=
  match v.asNum with
  | some q => .ok (.vfloat (if q > 1/50 then q - 1/50 else 1/100))
  | none => .error (.conversion (some "ParameterLevel") none)

/-- `ParameterToStructureConverter._convert_impl` over an explicit
registry. -/
def parameterToStructureImpl (reg : List (String × STemplate)) (pl : ParameterLevel) :
    Except ConvErr StructureLevel :=
  match selectTemplate reg pl with
  | none => .error (.conversion (some "ParameterLevel") (some "StructureLevel"))
  | some (tname, t) =>
      let stype := t.structure_type
      let componentsE : Except ConvErr (List (String × StructureComponent)) :=
        if stype = .SYNTH_DEF then
          let osc :=
            if pl.has_parameter "frequency" then
              let freq := (pl.get_parameter "frequency").getD ⟨"static", .vnone, none, none, none, []⟩
              [("oscillator", mkComponent "oscillator" "oscillator" (.vdict
                [("type", if pl.has_parameter "waveform" then pl.paramValue "waveform"
                          else .vstr "sine"),
                 ("frequency", freq.value),
                 ("unit", match freq.unit with | some u => .vstr u | none => .vnone)]))]
            else []
          let envParams :=
            (if pl.has_parameter "attack" then [("attack", pl.paramValue "attack")] else [])
            ++ (if pl.has_parameter "decay" then [("decay", pl.paramValue "decay")] else [])
            ++ (if pl.has_parameter "sustain" then [("sustain", pl.paramValue "sustain")] else [])
            ++ (if pl.has_parameter "release" then [("release", pl.paramValue "release")] else [])
          let envE : Except ConvErr (List (String × StructureComponent)) :=
            if ¬ envParams.isEmpty then
              .ok [("envelope", mkComponent "envelope" "envelope" (.vdict envParams))]
            else if pl.has_parameter "duration" then
              match sustainOfDuration (pl.paramValue "duration") with
              | .ok sus =>
                  .ok [("envelope", mkComponent "envelope" "envelope" (.vdict
                    [("type", .vstr "linen"), ("attack", .vfloat (1/100)),
                     ("sustain", sus), ("release", .vfloat (1/100))]))]
              | .error e => .error e
            else .ok []
          let amp :=
            if pl.has_parameter "amplitude" then
              [("amplitude", mkComponent "amplitude" "amplitude" (.vdict
                [("value", pl.paramValue "amplitude")]))]
            else []
          let outc :=
            [("output", mkComponent "output" "output" (.vdict
              [("channels", .vint 2), ("doneAction", .vint 2)]))]
          match envE with
          | .ok env => .ok (osc ++ env ++ amp ++ outc)
          | .error e => .error e
        else if stype = .EFFECT_CHAIN then
          let effectType :=
            if pl.has_parameter "effect_type" then pl.paramValue "effect_type"
            else .vstr "reverb"
          let effectParams :=
            if effectType.eqStr "reverb" then
              (if pl.has_parameter "mix" then [("mix", pl.paramValue "mix")] else [])
              ++ (if pl.has_parameter "room" then [("room", pl.paramValue "room")] else [])
              ++ (if pl.has_parameter "damp" then [("damp", pl.paramValue "damp")] else [])
            else []
          let eff :=
            [("effect", mkComponent "effect" "effect" (.vdict
              [("type", effectType), ("parameters", .vdict effectParams)]))]
          let inp :=
            if pl.has_parameter "input_sound" then
              [("input", mkComponent "input" "input" (.vdict
                [("sound", pl.paramValue "input_sound")]))]
            else []
          let outc := [("output", mkComponent "output" "output" (.vdict [("channels", .vint 2)]))]
          .ok (eff ++ inp ++ outc)
        else .ok []
      match componentsE with
      | .error e => .error e
      | .ok components =>
          let keys := components.map (·.1)
          let connections :=
            if stype = .SYNTH_DEF then
              (if keys.contains "oscillator" ∧ keys.contains "envelope" then
                [("oscillator", "envelope")] else [])
              ++ (if keys.contains "envelope" ∧ keys.contains "amplitude" then
                [("envelope", "amplitude")] else [])
              ++ (if keys.contains "amplitude" ∧ keys.contains "output" then
                [("amplitude", "output")] else [])
            else if stype = .EFFECT_CHAIN then
              (if keys.contains "input" ∧ keys.contains "effect" then
                [("input", "effect")] else [])
              ++ (if keys.contains "effect" ∧ keys.contains "output" then
                [("effect", "output")] else [])
            else []
          .ok ⟨stype, components, connections, pl.parameters.map (·.1),
               [("template_name", .vstr tname)]⟩

/-- `ParameterLevel.is_valid` as a boolean. -/
def ParameterLevel.is_valid (pl : ParameterLevel) : Bool :=
  match pl.validate with
  | .ok _ => true
  | .error _ => false

/-- `ParameterToStructureConverter.convert` with the default registry. -/
def parameterToStructureConvert (pl : ParameterLevel) : Except ConvErr StructureLevel :=
  match pl.validate with
  | .error e => .error (.validation e)
  | .ok _ => parameterToStructureImpl structureTemplates pl

/-- A code template of `StructureToCodeConverter`: the code type and the
template text. -/
structure CTemplate where
  code_type : CodeType
  template : String

/-- The `sine` synth template (structural braces of the SuperCollider
text are written as hex escapes; the placeholder braces are literal). -/
def sineTemplate : String :=
  "\ns.waitForBoot(\x7b\n    \x7b\n        // {freq}Hzの正弦波オシレーターを生成\n        var sig = SinOsc.ar({freq}, 0, {amp});\n        // エンベロープを適用してクリックノイズを防止\n        sig = sig * EnvGen.kr(Env.linen(0.01, {duration}, 0.01), doneAction: 2);\n        sig ! 2 // ステレオ出力\n    \x7d.play;\n\x7d);\n"

/-- The `saw` synth template. -/
def sawTemplate : String :=
  "\ns.waitForBoot(\x7b\n    \x7b\n        // {freq}Hzのノコギリ波を生成\n        var sig = Saw.ar({freq}, {amp});\n        // エンベロープを適用\n        sig = sig * EnvGen.kr(Env.linen(0.01, {duration}, 0.01), doneAction: 2);\n        sig ! 2 // ステレオ出力\n    \x7d.play;\n\x7d);\n"

/-- The `pad` synth template. -/
def padTemplate : String :=
  "\ns.waitForBoot(\x7b\n    \x7b\n        // デチューンした複数の正弦波を使用\n        var sig = SinOsc.ar([{freq}, {freq}*1.005], 0, {amp}) + SinOsc.ar([{freq}*0.5, {freq}*0.501], 0, {amp}*0.5);\n        // ローパスフィルターで高周波を削減\n        sig = LPF.ar(sig, 1000);\n        // ADSRエンベロープで緩やかな立ち上がりと減衰を実現\n        sig = sig * EnvGen.kr(Env.adsr(1, 0.2, 0.7, 2), 1, doneAction: 2);\n        sig\n    \x7d.play;\n\x7d);\n"

/-- The `reverb` effect template. -/
def reverbTemplate : String :=
  "\ns.waitForBoot(\x7b\n    \x7b\n        // 入力信号\n        var input = {input_sound};\n        // リバーブを適用\n        var wet = FreeVerb.ar(input, {mix}, {room}, {damp});\n        wet ! 2 // ステレオ出力\n    \x7d.play;\n\x7d);\n"

/-- The default `code_templates` table, keyed by structure type and then
by waveform / effect kind. -/
def codeTemplates : List (StructureType × List (String × CTemplate)) :=
  [(.SYNTH_DEF,
     [("sine", ⟨.SYNTH, sineTemplate⟩),
      ("saw", ⟨.SYNTH, sawTemplate⟩),
      ("pad", ⟨.SYNTH, padTemplate⟩)]),
   (.EFFECT_CHAIN,
     [("reverb", ⟨.EFFECT, reverbTemplate⟩)])]

/-- `StructureLevel.get_component` behind a `has_component` guard. -/
def StructureLevel.componentValue (s : StructureLevel) (n : String) : PyVal :=
  match assocFind s.components n with
  | some c => c.value
  | none => .vnone

/-- The discriminator read in `StructureToCodeConverter._select_template`:
the `"type"` entry of the named component's dict value when present,
otherwise the given default.  (A non-dict component value or a value
without `"type"` keeps the default, as in the source.) -/
def discriminatorOf (s : StructureLevel) (comp : String) (dflt : PyVal) : PyVal :=
  match assocFind s.components comp with
  | some c =>
      match c.value with
      | .vdict d => match pyFind d "type" with
        | some t => t
        | none => dflt
      | _ => dflt
  | none => dflt

/-- Lookup of a variant key in a per-structure-type template group; the
source's `waveform in self.code_templates[structure_type]` dict test is a
string-key test (a non-string discriminator is never found). -/
def variantFind (group : List (String × CTemplate)) (k : PyVal) : Option CTemplate :=
  match group with
  | [] => none
  | (n, t) :: rest => if k.eqStr n then some t else variantFind rest k

/-- `StructureToCodeConverter._select_template` over an explicit table:
the variant keyed by the waveform (synth) or effect kind (effect chain),
falling back to the fixed `sine` / `reverb` default variant. -/
def selectCodeTemplate (tbl : List (StructureType × List (String × CTemplate)))
    (s : StructureLevel) : Except ConvErr CTemplate :=
  match (tbl.find? fun g => g.1 = s.structure_type).map (·.2) with
  | none => .error (.conversion (some "StructureLevel") (some "CodeLevel"))
  | some group =>
      let waveform := discriminatorOf s "oscillator" (.vstr "sine")
      let effectType := discriminatorOf s "effect" (.vstr "reverb")
      if s.structure_type = .SYNTH_DEF then
        match variantFind group waveform with
        | some t => .ok t
        | none =>
            match assocFind group "sine" with
            | some t => .ok t
            | none => .error (.conversion (some "StructureLevel") none)
      else if s.structure_type = .EFFECT_CHAIN then
        match variantFind group effectType with
        | some t => .ok t
        | none =>
            match assocFind group "reverb" with
            | some t => .ok t
            | none => .error (.conversion (some "StructureLevel") none)
      else .error (.conversion (some "StructureLevel") (some "CodeLevel"))

/-- `CodeVariable(name, value, var_type, True)` with empty metadata. -/
def mkLitVar (nm : String) (v : PyVal) (ty : String) : CodeVariable :=
  ⟨nm, v, some ty, true, []⟩

/-- The entry of a component's dict value under a key, `none` when the
component is absent, its value is not a dict, or the key is missing —
the guards of `StructureToCodeConverter._convert_impl`. -/
def componentDictEntry (s : StructureLevel) (comp key : String) : Option PyVal :=
  match assocFind s.components comp with
  | some c =>
      match c.value with
      | .vdict d => pyFind d key
      | _ => none
  | none => none

/-- `if nm not in variables: variables[nm] = v` — the default-filling
step of `StructureToCodeConverter._convert_impl`. -/
def addMissingVar (l : List (String × CodeVariable)) (nm : String) (v : CodeVariable) :
    List (String × CodeVariable) :=
  if l.any (·.1 = nm) then l else l ++ [(nm, v)]

/-- The variables read off a `SYNTH_DEF` structure's components in
`_convert_impl`.  The dead `elif` reading a `linen` sustain (its guard
repeats the condition the preceding `if` just refuted) is unreachable
and has no counterpart here. -/
def synthDefVars (s : StructureLevel) : List (String × CodeVariable) :=
  (match componentDictEntry s "oscillator" "frequency" with
   | some freq => [("freq", mkLitVar "freq" freq "frequency")]
   | none => [])
  ++ (match componentDictEntry s "amplitude" "value" with
   | some amp => [("amp", mkLitVar "amp" amp "amplitude")]
   | none => [])
  ++ (match componentDictEntry s "envelope" "sustain" with
   | some dur => [("duration", mkLitVar "duration" dur "duration")]
   | none => [])

/-- The variables read off an `EFFECT_CHAIN` structure's components in
`_convert_impl`: effect parameters and the input-sound expression, all
constructed as literals. -/
def effectChainVars (s : StructureLevel) : List (String × CodeVariable) :=
  (match componentDictEntry s "effect" "parameters" with
   | some (.vdict params) =>
       (match pyFind params "mix" with
        | some v => [("mix", mkLitVar "mix" v "mix")]
        | none => [])
       ++ (match pyFind params "room" with
        | some v => [("room", mkLitVar "room" v "room")]
        | none => [])
       ++ (match pyFind params "damp" with
        | some v => [("damp", mkLitVar "damp" v "damp")]
        | none => [])
   | _ => [])
  ++ (match componentDictEntry s "input" "sound" with
   | some snd => [("input_sound", mkLitVar "input_sound" snd "input_sound")]
   | none => [])

/-- The full variable map `_convert_impl` builds: component-derived
variables, then the documented default constants, the non-literal
default input expression last. -/
def buildCodeVars (s : StructureLevel) : List (String × CodeVariable) :=
  let vars0 :=
    if s.structure_type = .SYNTH_DEF then synthDefVars s
    else if s.structure_type = .EFFECT_CHAIN then effectChainVars s
    else []
  let vars1 := addMissingVar vars0 "freq" (mkLitVar "freq" (.vfloat 440) "frequency")
  let vars2 := addMissingVar vars1 "amp" (mkLitVar "amp" (.vfloat (1/2)) "amplitude")
  let vars3 := addMissingVar vars2 "duration" (mkLitVar "duration" (.vfloat 1) "duration")
  if s.structure_type = .EFFECT_CHAIN then
    addMissingVar
      (addMissingVar
        (addMissingVar
          (addMissingVar vars3 "mix" (mkLitVar "mix" (.vfloat (33/100)) "mix"))
          "room" (mkLitVar "room" (.vfloat (1/2)) "room"))
        "damp" (mkLitVar "damp" (.vfloat (1/2)) "damp"))
      "input_sound" ⟨"input_sound", .vstr "WhiteNoise.ar(0.2)", some "input_sound", false, []⟩
  else vars3

/-- `StructureToCodeConverter._convert_impl` over an explicit table. -/
def structureToCodeImpl (tbl : List (StructureType × List (String × CTemplate)))
    (s : StructureLevel) : Except ConvErr CodeLevel :=
  match selectCodeTemplate tbl s with
  | .error e => .error e
  | .ok ct =>
      .ok ⟨ct.code_type, ct.template, buildCodeVars s, some s.structure_type.name,
           [("source_parameters", .vlist (s.source_parameters.map .vstr))]⟩

/-- `StructureLevel.is_valid` as a boolean. -/
def StructureLevel.is_valid (s : StructureLevel) : Bool :=
  match s.validate with
  | .ok _ => true
  | .error _ => false

/-- `StructureToCodeConverter.convert` with the default table. -/
def structureToCodeConvert (s : StructureLevel) : Except ConvErr CodeLevel :=
  match s.validate with
  | .error e => .error (.validation e)
  | .ok _ => structureToCodeImpl codeTemplates s

/-- The three-stage pipeline `convert_intent_to_code`: Intent →
Parameter → Structure → Code. -/
def convertIntentToCode (intent : IntentLevel) : Except ConvErr CodeLevel :=
  match intentToParameterConvert intent with
  | .error e => .error e
  | .ok pl =>
      match parameterToStructureConvert pl with
      | .error e => .error e
      | .ok st => structureToCodeConvert st

/-!
## Scenario A (spec section 8) concrete pipeline run
-/

/-- The Scenario A input intent. -/
def scenarioAIntent : IntentLevel := ⟨.GENERATE_SOUND, "440Hz sine wave", [], 1⟩

/-- The parameter level Scenario A's first stage produces. -/
def scenarioAParams : ParameterLevel :=
  ((intentToParameterConvert scenarioAIntent).toOption).getD ⟨[], none⟩

/-- The structure level Scenario A's second stage produces. -/
def scenarioAStructure : StructureLevel :=
  ((parameterToStructureConvert scenarioAParams).toOption).getD ⟨.UNKNOWN, [], [], [], []⟩

/-- The code level Scenario A's third stage produces. -/
def scenarioACode : CodeLevel :=
  ((structureToCodeConvert scenarioAStructure).toOption).getD ⟨.UNKNOWN, "", [], none, []⟩

/-- The rendered Scenario A code text. -/
def scenarioARendered : String :=
  ((scenarioACode.to_code).toOption).getD ""

/-!
## Round-trip lemmas for the structured forms
-/

theorem IntentType_ofName_name (t : IntentType) : IntentType.ofName t.name = t := by
  cases t <;> rfl

theorem StructureType_ofName_name (t : StructureType) : StructureType.ofName t.name = t := by
  cases t <;> rfl

theorem CodeType_ofName_name (t : CodeType) : CodeType.ofName t.name = t := by
  cases t <;> rfl

theorem pyFind_cons (k k' : String) (v : PyVal) (rest : List (String × PyVal)) :
    pyFind ((k', v) :: rest) k = if k' = k then some v else pyFind rest k := rfl

/-- A `ParameterValue` whose unit is not present-but-empty reconstructs
from its structured form. -/
theorem ParameterValue_from_to (p : ParameterValue) (hu : p.unit ≠ some "") :
    ParameterValue.from_dict (match p.to_dict with | .vdict e => e | _ => []) = p := by
  obtain ⟨vt, v, u, mn, mx, md⟩ := p
  rcases u with _ | u
  · rcases mn with _ | mn <;> rcases mx with _ | mx <;> rcases hmd : md.isEmpty with _ | _ <;>
      simp_all [ParameterValue.to_dict, ParameterValue.from_dict, pyFind, pyGetD,
        List.isEmpty_iff]
  · have hu' : u ≠ "" := fun h => hu (by simp [h])
    rcases mn with _ | mn <;> rcases mx with _ | mx <;> rcases hmd : md.isEmpty with _ | _ <;>
      simp_all [ParameterValue.to_dict, ParameterValue.from_dict, pyFind, pyGetD,
        List.isEmpty_iff]

/-- A `StructureComponent` reconstructs from its structured form. -/
theorem StructureComponent_from_to (c : StructureComponent) :
    StructureComponent.from_dict (match c.to_dict with | .vdict e => e | _ => []) = c := by
  obtain ⟨ty, nm, v, md⟩ := c
  rcases hmd : md.isEmpty with _ | _ <;>
    simp_all [StructureComponent.to_dict, StructureComponent.from_dict, pyFind, pyGetD,
      List.isEmpty_iff]

/-- A `CodeVariable` whose `var_type` is not present-but-empty
reconstructs from its structured form. -/
theorem CodeVariable_from_to (v : CodeVariable) (ht : v.var_type ≠ some "") :
    CodeVariable.from_dict (match v.to_dict with | .vdict e => e | _ => []) = v := by
  obtain ⟨nm, vl, ty, lit, md⟩ := v
  rcases ty with _ | ty
  · rcases hmd : md.isEmpty with _ | _ <;>
      simp_all [CodeVariable.to_dict, CodeVariable.from_dict, pyFind, pyGetD, List.isEmpty_iff]
  · have ht' : ty ≠ "" := fun h => ht (by simp [h])
    rcases hmd : md.isEmpty with _ | _ <;>
      simp_all [CodeVariable.to_dict, CodeVariable.from_dict, pyFind, pyGetD, List.isEmpty_iff]

/-- An `IntentLevel` reconstructs from its structured form. -/
theorem IntentLevel_from_to (i : IntentLevel) :
    IntentLevel.from_dict i.to_dict = i := by
  obtain ⟨ty, ds, md, cf⟩ := i
  simp [IntentLevel.to_dict, IntentLevel.from_dict, pyFind, IntentType_ofName_name]

/-- The parameter-map entries reconstruct entrywise. -/
theorem paramEntries_from_to (ps : List (String × ParameterValue))
    (hu : ∀ nv ∈ ps, nv.2.unit ≠ some "") :
    (ps.map fun nv => (nv.1, nv.2.to_dict)).map
      (fun nv => (nv.1, ParameterValue.from_dict (match nv.2 with | .vdict e => e | _ => []))) =
      ps := by
  induction ps with
  | nil => rfl
  | cons hd tl ih =>
      have h1 := ParameterValue_from_to hd.2 (hu hd (by simp))
      have h2 := ih fun nv hm => hu nv (by simp [hm])
      simp only [List.map_cons, h1, List.map_map] at h2 ⊢
      rw [h2]

/-- A `ParameterLevel` whose optional text fields are not
present-but-empty reconstructs from its structured form. -/
theorem ParameterLevel_from_to (pl : ParameterLevel)
    (hsi : pl.source_intent ≠ some "")
    (hu : ∀ nv ∈ pl.parameters, nv.2.unit ≠ some "") :
    ParameterLevel.from_dict pl.to_dict = pl := by
  obtain ⟨ps, si⟩ := pl
  have hps := paramEntries_from_to ps hu
  rcases si with _ | si
  · simpa [ParameterLevel.to_dict, ParameterLevel.from_dict, pyFind] using hps
  · have hsi' : si ≠ "" := fun h => hsi (by simp [h])
    simpa [ParameterLevel.to_dict, ParameterLevel.from_dict, pyFind, hsi'] using hps

/-- A `StructureLevel` reconstructs from its structured form. -/
theorem StructureLevel_from_to (s : StructureLevel) :
    StructureLevel.from_dict s.to_dict = s := by
  obtain ⟨ty, cs, cn, sp, md⟩ := s
  have hcs : (cs.map fun nc => (nc.1, nc.2.to_dict)).map
      (fun nc => (nc.1, StructureComponent.from_dict (match nc.2 with | .vdict e => e | _ => []))) =
      cs := by
    induction cs with
    | nil => rfl
    | cons hd tl ih => simpa [StructureComponent_from_to hd.2] using ih
  have hcn : (cn.map fun oi => PyVal.vlist [.vstr oi.1, .vstr oi.2]).filterMap
      (fun t => match t with | .vlist [.vstr a, .vstr b] => some (a, b) | _ => none) = cn := by
    induction cn with
    | nil => rfl
    | cons hd tl ih => simpa using ih
  have hsp : (sp.map PyVal.vstr).filterMap
      (fun t => match t with | .vstr a => some a | _ => none) = sp := by
    induction sp with
    | nil => rfl
    | cons hd tl ih => simpa using ih
  rcases hmd : md.isEmpty with _ | _ <;>
    simp_all [StructureLevel.to_dict, StructureLevel.from_dict, pyFind,
      StructureType_ofName_name, List.isEmpty_iff]

/-- The variable-map entries reconstruct entrywise. -/
theorem codeVarEntries_from_to (vs : List (String × CodeVariable))
    (ht : ∀ nv ∈ vs, nv.2.var_type ≠ some "") :
    (vs.map fun nv => (nv.1, nv.2.to_dict)).map
      (fun nv => (nv.1, CodeVariable.from_dict (match nv.2 with | .vdict e => e | _ => []))) =
      vs := by
  induction vs with
  | nil => rfl
  | cons hd tl ih =>
      have h1 := CodeVariable_from_to hd.2 (ht hd (by simp))
      have h2 := ih fun nv hm => ht nv (by simp [hm])
      simp only [List.map_cons, h1, List.map_map] at h2 ⊢
      rw [h2]

/-- A `CodeLevel` whose optional text fields are not present-but-empty
reconstructs from its structured form. -/
theorem CodeLevel_from_to (c : CodeLevel)
    (hss : c.source_structure ≠ some "")
    (ht : ∀ nv ∈ c.vars, nv.2.var_type ≠ some "") :
    CodeLevel.from_dict c.to_dict = c := by
  obtain ⟨ty, tpl, vs, ss, md⟩ := c
  have hvs := codeVarEntries_from_to vs ht
  rcases ss with _ | ss
  · rcases hmd : md.isEmpty with _ | _ <;>
      simp_all [CodeLevel.to_dict, CodeLevel.from_dict, pyFind, CodeType_ofName_name,
        List.isEmpty_iff]
  · have hss' : ss ≠ "" := fun h => hss (by simp [h])
    rcases hmd : md.isEmpty with _ | _ <;>
      simp_all [CodeLevel.to_dict, CodeLevel.from_dict, pyFind, CodeType_ofName_name,
        List.isEmpty_iff]

/-!
## Theorems
-/

/-!
## Characterization of the placeholder scan

`findPlaceholders` finds a name `n` exactly when the template contains
the braced occurrence of `n` as a non-empty word-character run.
-/

theorem drop_length_takeWhile (p : Char → Bool) (l : List Char) :
    l.drop (l.takeWhile p).length = l.dropWhile p := by
  induction l with
  | nil => rfl
  | cons a l ih =>
      by_cases h : p a <;> simp [List.takeWhile_cons, List.dropWhile_cons, h, ih]

theorem takeWhile_all_append (p : Char → Bool) (m v : List Char) (c : Char)
    (hm : ∀ ch ∈ m, p ch) (hc : ¬ p c) :
    (m ++ c :: v).takeWhile p = m := by
  induction m with
  | nil => simp [List.takeWhile_cons, hc]
  | cons a m ih =>
      have ha := hm a (by simp)
      simp only [List.cons_append, List.takeWhile_cons, ha, if_pos]
      rw [ih fun ch hch => hm ch (by simp [hch])]

theorem dropWhile_all_append (p : Char → Bool) (m v : List Char) (c : Char)
    (hm : ∀ ch ∈ m, p ch) (hc : ¬ p c) :
    (m ++ c :: v).dropWhile p = c :: v := by
  induction m with
  | nil => simp [List.dropWhile_cons, hc]
  | cons a m ih =>
      have ha := hm a (by simp)
      simp only [List.cons_append, List.dropWhile_cons, ha, if_pos]
      exact ih fun ch hch => hm ch (by simp [hch])

/-- Splitting an occurrence of a character that cannot lie inside the
prefix `w` nor equal the separator. -/
theorem split_after_of_not_mem (x y : Char) (hxy : x ≠ y) :
    ∀ (w u : List Char) (t zs : List Char), x ∉ w →
      w ++ y :: t = u ++ x :: zs →
      ∃ u', u = w ++ y :: u' ∧ t = u' ++ x :: zs := by
  intro w
  induction w with
  | nil =>
      intro u t zs _ he
      cases u with
      | nil => simp at he; exact absurd he.1.symm hxy
      | cons a u' =>
          simp at he
          exact ⟨u', by simp [he.1], he.2⟩
  | cons b w ih =>
      intro u t zs hx he
      cases u with
      | nil =>
          simp at he
          exact absurd (by rw [he.1]; exact List.mem_cons_self x w) hx
      | cons a u' =>
          simp at he
          obtain ⟨u'', hu, ht⟩ := ih u' t zs (fun hmem => hx (by simp [hmem])) he.2
          exact ⟨u'', by simp [he.1, hu], ht⟩

theorem assocFind_eq_none_iff {α : Type} (l : List (String × α)) (n : String) :
    assocFind l n = none ↔ ∀ nv ∈ l, nv.1 ≠ n := by
  induction l with
  | nil => simp [assocFind]
  | cons hd tl ih =>
      by_cases h : hd.1 = n <;> simp [assocFind, h, ih]

theorem isWordChar_obrC : isWordChar obrC = false := by decide

theorem isWordChar_cbrC : isWordChar cbrC = false := by decide

theorem findPhGo_succ_cons (f : Nat) (c : Char) (rest : List Char) :
    findPhGo (f + 1) (c :: rest) =
      if c = obrC then
        if (rest.takeWhile isWordChar).isEmpty then findPhGo f rest
        else
          match rest.drop (rest.takeWhile isWordChar).length with
          | c2 :: tail =>
              if c2 = cbrC then String.mk (rest.takeWhile isWordChar) :: findPhGo f tail
              else findPhGo f rest
          | [] => findPhGo f rest
      else findPhGo f rest := rfl

/-- Soundness of the placeholder scan: every reported name occurs in the
template as a braced non-empty word-character run. -/
theorem findPhGo_sound : ∀ (fuel : Nat) (cs m : List Char),
    String.mk m ∈ findPhGo fuel cs →
    ∃ u v, cs = u ++ obrC :: (m ++ cbrC :: v) ∧ m ≠ [] ∧ ∀ ch ∈ m, isWordChar ch := by
  intro fuel
  induction fuel with
  | zero => intro cs m h; simp [findPhGo] at h
  | succ f ih =>
      intro cs m h
      cases cs with
      | nil => simp [findPhGo] at h
      | cons c rest =>
          rw [findPhGo_succ_cons] at h
          by_cases hc : c = obrC
          · rw [if_pos hc] at h
            by_cases hw : (rest.takeWhile isWordChar).isEmpty
            · rw [if_pos hw] at h
              obtain ⟨u, v, hcs, hne, hword⟩ := ih rest m h
              exact ⟨c :: u, v, by simp [hcs], hne, hword⟩
            · rw [if_neg hw] at h
              rcases hdrop : rest.drop (rest.takeWhile isWordChar).length with _ | ⟨c2, tail⟩
              · rw [hdrop] at h
                obtain ⟨u, v, hcs, hne, hword⟩ := ih rest m h
                exact ⟨c :: u, v, by simp [hcs], hne, hword⟩
              · rw [hdrop] at h
                dsimp only at h
                by_cases hc2 : c2 = cbrC
                · rw [if_pos hc2] at h
                  have hrest : rest = rest.takeWhile isWordChar ++ (c2 :: tail) := by
                    conv_lhs => rw [← List.takeWhile_append_dropWhile isWordChar rest]
                    rw [← drop_length_takeWhile isWordChar rest, hdrop]
                  rcases List.mem_cons.mp h with heq | hmem
                  · have hm : m = rest.takeWhile isWordChar := congrArg String.data heq
                    refine ⟨[], tail, ?_, ?_, ?_⟩
                    · rw [List.nil_append, hc, hm, ← hc2, ← hrest]
                    · intro hnil
                      rw [hm] at hnil
                      exact hw (by rw [hnil]; rfl)
                    · intro ch hch
                      exact List.mem_takeWhile_imp (hm ▸ hch)
                  · obtain ⟨u, v, htail, hne, hword⟩ := ih tail m hmem
                    refine ⟨obrC :: (rest.takeWhile isWordChar ++ cbrC :: u), v, ?_, hne, hword⟩
                    conv_lhs => rw [hc, hrest, htail, hc2]
                    simp
                · rw [if_neg hc2] at h
                  obtain ⟨u, v, hcs, hne, hword⟩ := ih rest m h
                  exact ⟨c :: u, v, by simp [hcs], hne, hword⟩
          · rw [if_neg hc] at h
            obtain ⟨u, v, hcs, hne, hword⟩ := ih rest m h
            exact ⟨c :: u, v, by simp [hcs], hne, hword⟩

/-- Completeness of the placeholder scan: every braced non-empty
word-character run is reported (with enough fuel). -/
theorem findPhGo_complete : ∀ (fuel : Nat) (cs : List Char), cs.length ≤ fuel →
    ∀ (u m v : List Char), cs = u ++ obrC :: (m ++ cbrC :: v) → m ≠ [] →
    (∀ ch ∈ m, isWordChar ch) → String.mk m ∈ findPhGo fuel cs := by
  intro fuel
  induction fuel with
  | zero =>
      intro cs hlen u m v hcs _ _
      subst hcs
      simp at hlen
  | succ f ih =>
      intro cs hlen u m v hcs hne hword
      cases u with
      | nil =>
          subst hcs
          have hw : (m ++ cbrC :: v).takeWhile isWordChar = m :=
            takeWhile_all_append isWordChar m v cbrC hword (by simp [isWordChar_cbrC])
          have hdrop : (m ++ cbrC :: v).drop ((m ++ cbrC :: v).takeWhile isWordChar).length =
              cbrC :: v := by
            rw [drop_length_takeWhile]
            exact dropWhile_all_append isWordChar m v cbrC hword (by simp [isWordChar_cbrC])
          rw [List.nil_append, findPhGo_succ_cons, if_pos rfl,
            if_neg (by rw [hw]; simp [List.isEmpty_iff, hne]), hdrop]
          dsimp only
          rw [if_pos rfl, hw]
          exact List.mem_cons_self _ _
      | cons c0 u' =>
          subst hcs
          have hlen' : (u' ++ obrC :: (m ++ cbrC :: v)).length ≤ f := by
            simp at hlen ⊢
            omega
          rw [List.cons_append, findPhGo_succ_cons]
          set rest := u' ++ obrC :: (m ++ cbrC :: v) with hrest
          by_cases hc : c0 = obrC
          · rw [if_pos hc]
            by_cases hw : (rest.takeWhile isWordChar).isEmpty
            · rw [if_pos hw]
              exact ih rest hlen' u' m v hrest hne hword
            · rw [if_neg hw]
              rcases hdrop : rest.drop (rest.takeWhile isWordChar).length with _ | ⟨c2, tail⟩
              · dsimp only
                exact ih rest hlen' u' m v hrest hne hword
              · dsimp only
                by_cases hc2 : c2 = cbrC
                · rw [if_pos hc2]
                  have hsplit : rest = rest.takeWhile isWordChar ++ cbrC :: tail := by
                    conv_lhs => rw [← List.takeWhile_append_dropWhile isWordChar rest]
                    rw [← drop_length_takeWhile isWordChar rest, hdrop, hc2]
                  have hobr : obrC ∉ rest.takeWhile isWordChar := fun hmem => by
                    have := List.mem_takeWhile_imp hmem
                    simp [isWordChar_obrC] at this
                  obtain ⟨u'', _, htail⟩ :=
                    split_after_of_not_mem obrC cbrC (by decide)
                      (rest.takeWhile isWordChar) u' tail (m ++ cbrC :: v) hobr
                      (hsplit.symm.trans hrest)
                  have hlen'' : tail.length ≤ f := by
                    have h0 : rest.length ≤ f := hrest ▸ hlen'
                    rw [hsplit] at h0
                    simp at h0
                    omega
                  exact List.mem_cons_of_mem _ (ih tail hlen'' u'' m v htail hne hword)
                · rw [if_neg hc2]
                  exact ih rest hlen' u' m v hrest hne hword
          · rw [if_neg hc]
            exact ih rest hlen' u' m v hrest hne hword

/-- The scan of a template reports a name exactly when the template
contains it as a braced non-empty word-character run. -/
theorem mem_findPlaceholders_iff (tpl n : String) :
    n ∈ findPlaceholders tpl ↔
      ∃ u v, tpl.toList = u ++ obrC :: (n.toList ++ cbrC :: v)
        ∧ n.toList ≠ [] ∧ ∀ ch ∈ n.toList, isWordChar ch := by
  constructor
  · intro h
    exact findPhGo_sound _ _ n.toList h
  · rintro ⟨u, v, hdec, hne, hword⟩
    exact findPhGo_complete _ _ le_rfl u n.toList v hdec hne hword

/-- Modelled from the spec wording of the render rule: the template with
every placeholder occurrence replaced, simultaneously, by its variable's
rendering (unknown names left in place).  This is the reference
the code's sequential replacement is compared against. -/
def substSpecGo (vars : List (String × CodeVariable)) : Nat → List Char → String
  | 0, _ => ""
  | _, [] => ""
  | f + 1, c :: rest =>
      if c = obrC then
        if (rest.takeWhile isWordChar).isEmpty then String.singleton c ++ substSpecGo vars f rest
        else
          match rest.drop (rest.takeWhile isWordChar).length with
          | c2 :: tail =>
              if c2 = cbrC then
                match assocFind vars (String.mk (rest.takeWhile isWordChar)) with
                | some w => w.to_code ++ substSpecGo vars f tail
                | none => String.singleton c ++ substSpecGo vars f rest
              else String.singleton c ++ substSpecGo vars f rest
          | [] => String.singleton c ++ substSpecGo vars f rest
      else String.singleton c ++ substSpecGo vars f rest

/-- The simultaneous substitution of a code level's variables into its
template (spec reading of the render rule). -/
def substSpec (c : CodeLevel) : String :=
  substSpecGo c.vars c.template.toList.length c.template.toList

/-- A valid `ParameterLevel` carrying a present-but-empty unit string:
the instance on which the round-trip law fails. -/
def c2CounterPL : ParameterLevel :=
  ⟨[("p", ⟨"static", .vfloat 1, some "", none, none, []⟩)], none⟩

/-- C2 counterexample: `c2CounterPL` is valid, yet reconstructing it from
its structured form is not the identity — `to_dict` drops the falsy unit
`""`, so `from_dict` returns the parameter with `unit = None`. -/
theorem C2_roundtrip_counterexample :
    ParameterLevel.validate c2CounterPL = .ok ()
    ∧ ParameterLevel.from_dict (ParameterLevel.to_dict c2CounterPL) ≠ c2CounterPL := by
  refine ⟨by with_unfolding_all rfl, fun h => ?_⟩
  have e1 : (ParameterLevel.from_dict (ParameterLevel.to_dict c2CounterPL)).parameters.map
      (fun nv => nv.2.unit) = [none] := by with_unfolding_all rfl
  rw [h] at e1
  have e2 : c2CounterPL.parameters.map (fun nv => nv.2.unit) = [some ""] := rfl
  rw [e2] at e1
  exact absurd e1 (by decide)

/-- C2 (amended): for every valid IR instance of the four levels,
`from_dict (to_dict x) = x` field for field, provided no optional text
field (`ParameterValue.unit`, `ParameterLevel.source_intent`,
`CodeVariable.var_type`, `CodeLevel.source_structure`) is
present-but-empty — `to_dict` includes those fields only when truthy, so
an empty string is normalized to an absent field by the round trip. -/
theorem C2_roundtrip_amended :
    (∀ i : IntentLevel, i.validate = .ok () → IntentLevel.from_dict i.to_dict = i)
    ∧ (∀ pl : ParameterLevel, pl.validate = .ok () → pl.source_intent ≠ some "" →
        (∀ nv ∈ pl.parameters, nv.2.unit ≠ some "") →
        ParameterLevel.from_dict pl.to_dict = pl)
    ∧ (∀ s : StructureLevel, s.validate = .ok () → StructureLevel.from_dict s.to_dict = s)
    ∧ (∀ c : CodeLevel, c.validate = .ok () → c.source_structure ≠ some "" →
        (∀ nv ∈ c.vars, nv.2.var_type ≠ some "") →
        CodeLevel.from_dict c.to_dict = c) :=
  ⟨fun i _ => IntentLevel_from_to i,
   fun pl _ h1 h2 => ParameterLevel_from_to pl h1 h2,
   fun s _ => StructureLevel_from_to s,
   fun c _ h1 h2 => CodeLevel_from_to c h1 h2⟩

/-- C2 witness: the amended round-trip law applied at one concrete valid
instance of each level. -/
theorem C2_roundtrip_witness :
    IntentLevel.from_dict (IntentLevel.to_dict ⟨.GENERATE_SOUND, "440Hz sine wave", [], 1⟩) =
      ⟨.GENERATE_SOUND, "440Hz sine wave", [], 1⟩
    ∧ ParameterLevel.from_dict
        (ParameterLevel.to_dict ⟨[("frequency", ⟨"static", .vfloat 440, some "Hz", none, none, []⟩)],
          some "GENERATE_SOUND"⟩) =
        ⟨[("frequency", ⟨"static", .vfloat 440, some "Hz", none, none, []⟩)], some "GENERATE_SOUND"⟩
    ∧ StructureLevel.from_dict
        (StructureLevel.to_dict ⟨.SYNTH_DEF, [("output", ⟨"output", "output", .vint 2, []⟩)],
          [("output", "output")], ["frequency"], []⟩) =
        ⟨.SYNTH_DEF, [("output", ⟨"output", "output", .vint 2, []⟩)],
          [("output", "output")], ["frequency"], []⟩
    ∧ CodeLevel.from_dict
        (CodeLevel.to_dict ⟨.SYNTH, "x", [("freq", ⟨"freq", .vfloat 440, some "frequency", true, []⟩)],
          some "SYNTH_DEF", []⟩) =
        ⟨.SYNTH, "x", [("freq", ⟨"freq", .vfloat 440, some "frequency", true, []⟩)],
          some "SYNTH_DEF", []⟩ :=
  ⟨C2_roundtrip_amended.1 _ (by with_unfolding_all rfl),
   C2_roundtrip_amended.2.1 _ (by with_unfolding_all rfl) (by simp)
     (by intro nv hm; simp at hm; simp [hm]),
   C2_roundtrip_amended.2.2.1 _ (by with_unfolding_all rfl),
   C2_roundtrip_amended.2.2.2 _ (by with_unfolding_all rfl) (by simp)
     (by intro nv hm; simp at hm; simp [hm])⟩

/-!
## Characterization of the template-selection loop
-/

/-- If the selection loop returns nothing, the accumulator was empty and
no remaining template is eligible with a score beating the running
best. -/
theorem selectTemplateGo_none (pl : ParameterLevel) :
    ∀ (rest : List (String × STemplate)) (bs : Int) (best : Option (String × STemplate)),
      selectTemplateGo pl rest bs best = none →
      best = none ∧
        ∀ nt ∈ rest, eligibleTemplate pl nt.2 = true → (templateScore pl nt.2 : Int) ≤ bs := by
  intro rest
  induction rest with
  | nil =>
      intro bs best h
      exact ⟨h, by simp⟩
  | cons hd tl ih =>
      intro bs best h
      obtain ⟨n, t⟩ := hd
      rw [selectTemplateGo] at h
      by_cases he : eligibleTemplate pl t = true
      · rw [if_pos he] at h
        by_cases hs : (templateScore pl t : Int) > bs
        · rw [if_pos hs] at h
          obtain ⟨hbest, _⟩ := ih _ _ h
          exact absurd hbest (by simp)
        · rw [if_neg hs] at h
          obtain ⟨hbest, htl⟩ := ih _ _ h
          refine ⟨hbest, ?_⟩
          intro nt hnt helig
          rcases List.mem_cons.mp hnt with heq | hmem
          · subst heq
            show (templateScore pl t : Int) ≤ bs
            omega
          · exact htl nt hmem helig
      · rw [if_neg he] at h
        obtain ⟨hbest, htl⟩ := ih _ _ h
        refine ⟨hbest, ?_⟩
        intro nt hnt helig
        rcases List.mem_cons.mp hnt with heq | hmem
        · subst heq
          exact absurd helig he
        · exact htl nt hmem helig

/-- If the selection loop returns a template, either it is the unchanged
accumulator and nothing in the remaining registry beats the running best,
or it sits in the remaining registry with a score beating the running
best, every earlier eligible entry scoring strictly lower and every later
eligible entry scoring no higher. -/
theorem selectTemplateGo_some (pl : ParameterLevel) :
    ∀ (rest : List (String × STemplate)) (bs : Int) (best : Option (String × STemplate))
      (n : String) (t : STemplate),
      selectTemplateGo pl rest bs best = some (n, t) →
      (best = some (n, t) ∧
        ∀ nt ∈ rest, eligibleTemplate pl nt.2 = true → (templateScore pl nt.2 : Int) ≤ bs)
      ∨ (∃ l1 l2, rest = l1 ++ (n, t) :: l2
          ∧ eligibleTemplate pl t = true
          ∧ (templateScore pl t : Int) > bs
          ∧ (∀ nt ∈ l1, eligibleTemplate pl nt.2 = true →
              templateScore pl nt.2 < templateScore pl t)
          ∧ (∀ nt ∈ l2, eligibleTemplate pl nt.2 = true →
              templateScore pl nt.2 ≤ templateScore pl t)) := by
  intro rest
  induction rest with
  | nil =>
      intro bs best n t h
      exact Or.inl ⟨h, by simp⟩
  | cons hd tl ih =>
      intro bs best n t h
      obtain ⟨n0, t0⟩ := hd
      rw [selectTemplateGo] at h
      by_cases he : eligibleTemplate pl t0 = true
      · rw [if_pos he] at h
        by_cases hs : (templateScore pl t0 : Int) > bs
        · rw [if_pos hs] at h
          rcases ih _ _ _ _ h with ⟨heq, htl⟩ | ⟨l1, l2, hdec, helig, hgt, hl1, hl2⟩
          · have hp : (n0, t0) = (n, t) := Option.some.inj heq
            have hn : n0 = n := congrArg Prod.fst hp
            have ht : t0 = t := congrArg Prod.snd hp
            subst hn
            subst ht
            refine Or.inr ⟨[], tl, by simp, he, hs, by simp, ?_⟩
            intro nt hnt hel
            have := htl nt hnt hel
            omega
          · refine Or.inr ⟨(n0, t0) :: l1, l2, by rw [hdec, List.cons_append], helig, by omega, ?_, hl2⟩
            intro nt hnt hel
            rcases List.mem_cons.mp hnt with heq2 | hmem
            · subst heq2
              show templateScore pl t0 < templateScore pl t
              omega
            · exact hl1 nt hmem hel
        · rw [if_neg hs] at h
          rcases ih _ _ _ _ h with ⟨heq, htl⟩ | ⟨l1, l2, hdec, helig, hgt, hl1, hl2⟩
          · refine Or.inl ⟨heq, ?_⟩
            intro nt hnt hel
            rcases List.mem_cons.mp hnt with heq2 | hmem
            · subst heq2
              show (templateScore pl t0 : Int) ≤ bs
              omega
            · exact htl nt hmem hel
          · refine Or.inr ⟨(n0, t0) :: l1, l2, by rw [hdec, List.cons_append], helig, hgt, ?_, hl2⟩
            intro nt hnt hel
            rcases List.mem_cons.mp hnt with heq2 | hmem
            · subst heq2
              show templateScore pl t0 < templateScore pl t
              omega
            · exact hl1 nt hmem hel
      · rw [if_neg he] at h
        rcases ih _ _ _ _ h with ⟨heq, htl⟩ | ⟨l1, l2, hdec, helig, hgt, hl1, hl2⟩
        · refine Or.inl ⟨heq, ?_⟩
          intro nt hnt hel
          rcases List.mem_cons.mp hnt with heq2 | hmem
          · subst heq2
            exact absurd hel he
          · exact htl nt hmem hel
        · refine Or.inr ⟨(n0, t0) :: l1, l2, by rw [hdec, List.cons_append], helig, hgt, ?_, hl2⟩
          intro nt hnt hel
          rcases List.mem_cons.mp hnt with heq2 | hmem
          · subst heq2
            exact absurd hel he
          · exact hl1 nt hmem hel

/-- The boolean eligibility test of `_select_template`, unfolded to its
declarative reading. -/
theorem eligibleTemplate_iff (pl : ParameterLevel) (t : STemplate) :
    eligibleTemplate pl t = true ↔
      (∀ r ∈ t.required_params, pl.has_parameter r = true)
      ∧ (∀ w, t.waveform = some w → pl.has_parameter "waveform" = true →
          (pl.paramValue "waveform").eqStr w = true)
      ∧ (∀ e, t.effect_type = some e → pl.has_parameter "effect_type" = true →
          (pl.paramValue "effect_type").eqStr e = true) := by
  obtain ⟨st, rq, op, wv, ef⟩ := t
  simp only [eligibleTemplate, Bool.and_eq_true, List.all_eq_true]
  rcases wv with _ | w <;> rcases ef with _ | e <;>
    by_cases h1 : pl.has_parameter "waveform" = true <;>
    by_cases h2 : pl.has_parameter "effect_type" = true <;>
    simp_all <;> tauto

/-- The code level on which the sequential and the simultaneous readings
of the render rule disagree: variable `a` renders to a quoted string that
itself contains the placeholder of `b`. -/
def c4Counter : CodeLevel :=
  ⟨.CUSTOM, "\x7ba\x7d",
   [("a", ⟨"a", .vstr "\x7bb\x7d", none, true, []⟩),
    ("b", ⟨"b", .vint 1, none, true, []⟩)],
   none, []⟩

/-- C4 counterexample: `c4Counter` is valid and `to_code` does not raise,
but the result is not the template with every placeholder replaced by its
variable's rendering: the rendering of `a` re-introduces `b`'s
placeholder, and the sequential `str.replace` loop substitutes inside it,
yielding a quoted `1` instead of the quoted braced `b`. -/
theorem C4_render_counterexample :
    c4Counter.validate = .ok ()
    ∧ CodeLevel.to_code c4Counter = .ok "\"1\""
    ∧ substSpec c4Counter = "\"\x7bb\x7d\""
    ∧ CodeLevel.to_code c4Counter ≠ .ok (substSpec c4Counter) := by
  have e2 : CodeLevel.to_code c4Counter = .ok "\"1\"" := by with_unfolding_all rfl
  have e3 : substSpec c4Counter = "\"\x7bb\x7d\"" := by with_unfolding_all rfl
  refine ⟨by with_unfolding_all rfl, e2, e3, ?_⟩
  intro hEq
  rw [e2, e3] at hEq
  simp at hEq

/-- C4 (amended): for every code level with a non-empty template,
`to_code` raises a `ValidationError` exactly when some placeholder
(a braced non-empty word-character run) occurring in the template has no
entry under that name in the variable map; when it does not raise, the
result is obtained by sequentially replacing, for each variable in map
insertion order, every occurrence of its placeholder in the evolving
string — so a rendering that itself contains a later variable's
placeholder is substituted again, which can differ from replacing each
placeholder of the original template (see the counterexample). -/
theorem C4_render_amended (c : CodeLevel) (h : c.template ≠ "") :
    ((∃ e, c.to_code = .error e) ↔
      ∃ n : String,
        (∃ u v, c.template.toList = u ++ obrC :: (n.toList ++ cbrC :: v)
          ∧ n.toList ≠ [] ∧ ∀ ch ∈ n.toList, isWordChar ch)
        ∧ assocFind c.vars n = none)
    ∧ (∀ s, c.to_code = .ok s →
        s = c.vars.foldl (fun acc nv => pyReplace acc (obr ++ nv.1 ++ cbr) nv.2.to_code)
          c.template) := by
  have hval : c.validate =
      (if (findPlaceholders c.template).all (fun p => (c.vars.map (·.1)).contains p) then
        Except.ok () else Except.error ⟨some "CodeLevel", some "variables"⟩) := by
    unfold CodeLevel.validate
    rw [if_neg h]
  by_cases hall : (findPlaceholders c.template).all (fun p => (c.vars.map (·.1)).contains p)
  · have hok : c.validate = .ok () := by rw [hval, if_pos hall]
    have htc : c.to_code = .ok
        (c.vars.foldl (fun acc nv => pyReplace acc (obr ++ nv.1 ++ cbr) nv.2.to_code)
          c.template) := by
      unfold CodeLevel.to_code
      rw [hok]
    constructor
    · constructor
      · rintro ⟨e, he⟩
        rw [htc] at he
        exact absurd he (by simp)
      · rintro ⟨n, hocc, hnone⟩
        have hmem : n ∈ findPlaceholders c.template := (mem_findPlaceholders_iff _ _).mpr hocc
        have hcon := List.all_eq_true.mp hall n hmem
        rw [assocFind_eq_none_iff] at hnone
        have hmem2 : n ∈ c.vars.map (·.1) := by simpa using hcon
        obtain ⟨nv, hnv, hfst⟩ := List.mem_map.mp hmem2
        exact absurd hfst (hnone nv hnv)
    · intro s hs
      rw [htc] at hs
      simpa using hs.symm
  · have herr : c.validate = .error ⟨some "CodeLevel", some "variables"⟩ := by
      rw [hval, if_neg hall]
    have htc : c.to_code = .error ⟨some "CodeLevel", some "variables"⟩ := by
      unfold CodeLevel.to_code
      rw [herr]
    constructor
    · constructor
      · intro _
        simp only [List.all_eq_true, not_forall] at hall
        obtain ⟨p, hp, hpc⟩ := hall
        refine ⟨p, (mem_findPlaceholders_iff _ _).mp hp, ?_⟩
        rw [assocFind_eq_none_iff]
        intro nv hnv hfst
        exact hpc (by simpa using List.mem_map.mpr ⟨nv, hnv, hfst⟩)
      · intro _
        exact ⟨_, htc⟩
    · intro s hs
      rw [htc] at hs
      exact absurd hs (by simp)

/-- The code level for the C4 witness: one placeholder, one matching
variable. -/
def c4Witness : CodeLevel :=
  ⟨.SYNTH, "x \x7bb\x7d", [("b", ⟨"b", .vint 1, none, true, []⟩)], none, []⟩

/-- C4 witness: the amended render law applied at `c4Witness`. -/
theorem C4_render_witness : CodeLevel.to_code c4Witness = .ok "x 1" := by
  have h2 := (C4_render_amended c4Witness (by decide)).2
  have hok : CodeLevel.to_code c4Witness = .ok "x 1" := by with_unfolding_all rfl
  have := h2 "x 1" hok
  exact hok

/-- C5: in Parameter→Structure conversion, a template is eligible
exactly when all its required parameters are present and each declared
discriminating parameter (`waveform`, `effect_type`) equals the input's
value whenever the input has one; the score is
`|required| + |optional ∩ present|` (which is `templateScore` by
definition); when no template is eligible nothing is selected; and the
selected template is eligible, every earlier-registered eligible template
scores strictly lower, and every later-registered eligible template
scores no higher — the highest score wins and registry order breaks
ties. -/
theorem C5_template_selection (reg : List (String × STemplate)) (pl : ParameterLevel) :
    (∀ t : STemplate, eligibleTemplate pl t = true ↔
      (∀ r ∈ t.required_params, pl.has_parameter r = true)
      ∧ (∀ w, t.waveform = some w → pl.has_parameter "waveform" = true →
          (pl.paramValue "waveform").eqStr w = true)
      ∧ (∀ e, t.effect_type = some e → pl.has_parameter "effect_type" = true →
          (pl.paramValue "effect_type").eqStr e = true))
    ∧ (selectTemplate reg pl = none → ∀ nt ∈ reg, eligibleTemplate pl nt.2 = false)
    ∧ (∀ n t, selectTemplate reg pl = some (n, t) →
        eligibleTemplate pl t = true
        ∧ ∃ l1 l2, reg = l1 ++ (n, t) :: l2
          ∧ (∀ nt ∈ l1, eligibleTemplate pl nt.2 = true →
              templateScore pl nt.2 < templateScore pl t)
          ∧ (∀ nt ∈ l2, eligibleTemplate pl nt.2 = true →
              templateScore pl nt.2 ≤ templateScore pl t)) := by
  refine ⟨fun t => eligibleTemplate_iff pl t, ?_, ?_⟩
  · intro h nt hnt
    obtain ⟨_, hall⟩ := selectTemplateGo_none pl reg (-1) none h
    by_cases he : eligibleTemplate pl nt.2 = true
    · have := hall nt hnt he
      omega
    · simpa using he
  · intro n t h
    rcases selectTemplateGo_some pl reg (-1) none n t h with ⟨hbest, _⟩ |
      ⟨l1, l2, hdec, helig, _, hl1, hl2⟩
    · exact absurd hbest (by simp)
    · exact ⟨helig, l1, l2, hdec, hl1, hl2⟩

/-- The entry the default registry selects for the Scenario A
parameters. -/
def c5Chosen : String × STemplate :=
  (selectTemplate structureTemplates scenarioAParams).getD ("", ⟨.UNKNOWN, [], [], none, none⟩)

/-- C5 witness: the selection characterization applied to the default
registry and the Scenario A parameters, which select `basic_sine`. -/
theorem C5_template_selection_witness :
    eligibleTemplate scenarioAParams c5Chosen.2 = true ∧ c5Chosen.1 = "basic_sine" := by
  have h := (C5_template_selection structureTemplates scenarioAParams).2.2 c5Chosen.1 c5Chosen.2
    (by with_unfolding_all rfl)
  exact ⟨h.1, by with_unfolding_all rfl⟩

/-!
## Effect-chain variable literalness (C6)
-/

theorem addMissingVar_mem {l : List (String × CodeVariable)} {nm : String} {v : CodeVariable}
    {nv : String × CodeVariable} (h : nv ∈ addMissingVar l nm v) : nv ∈ l ∨ nv = (nm, v) := by
  unfold addMissingVar at h
  split at h
  · exact Or.inl h
  · rcases List.mem_append.mp h with h2 | h2
    · exact Or.inl h2
    · simp at h2
      exact Or.inr h2

theorem addMissingVar_of_any {l : List (String × CodeVariable)} {nm : String} {v : CodeVariable}
    (h : l.any (·.1 = nm) = true) : addMissingVar l nm v = l := by
  unfold addMissingVar
  rw [if_pos h]

theorem addMissingVar_of_not_any {l : List (String × CodeVariable)} {nm : String}
    {v : CodeVariable} (h : l.any (·.1 = nm) = false) : addMissingVar l nm v = l ++ [(nm, v)] := by
  unfold addMissingVar
  rw [if_neg (by simp [h])]

theorem addMissingVar_any_ne {l : List (String × CodeVariable)} {nm : String} {v : CodeVariable}
    {n : String} (h : nm ≠ n) :
    (addMissingVar l nm v).any (·.1 = n) = l.any (·.1 = n) := by
  unfold addMissingVar
  split
  · rfl
  · simp [List.any_append, h]

/-- Every variable an effect-chain structure contributes is a literal —
including a supplied input-sound expression. -/
theorem effectChainVars_literal (s : StructureLevel) :
    ∀ nv ∈ effectChainVars s, nv.2.is_literal = true := by
  intro nv h
  unfold effectChainVars at h
  rcases List.mem_append.mp h with h2 | h2
  · split at h2
    · rcases List.mem_append.mp h2 with h3 | h3
      · rcases List.mem_append.mp h3 with h4 | h4
        · split at h4 <;> simp_all [mkLitVar]
        · split at h4 <;> simp_all [mkLitVar]
      · split at h3 <;> simp_all [mkLitVar]
    · simp at h2
  · split at h2 <;> simp_all [mkLitVar]

theorem effectChainVars_input_some (s : StructureLevel) (snd : PyVal)
    (h : componentDictEntry s "input" "sound" = some snd) :
    (effectChainVars s).any (·.1 = "input_sound") = true := by
  unfold effectChainVars
  rw [h]
  simp [List.any_append, mkLitVar]

theorem effectChainVars_input_none (s : StructureLevel)
    (h : componentDictEntry s "input" "sound" = none) :
    (effectChainVars s).any (·.1 = "input_sound") = false := by
  unfold effectChainVars
  rw [h]
  simp only [List.any_append, List.append_nil]
  split
  · simp only [List.any_append, Bool.or_eq_false_iff]
    refine ⟨⟨?_, ?_⟩, ?_⟩ <;> split <;> simp [mkLitVar]
  · rfl

/-- A successful `_convert_impl` yields exactly the built variable
map. -/
theorem structureToCodeImpl_ok_vars {tbl : List (StructureType × List (String × CTemplate))}
    {s : StructureLevel} {c : CodeLevel} (hc : structureToCodeImpl tbl s = .ok c) :
    c.vars = buildCodeVars s := by
  unfold structureToCodeImpl at hc
  rcases h : selectCodeTemplate tbl s with e | ct <;> rw [h] at hc
  · exact absurd hc (by simp)
  · rw [← Except.ok.inj hc]

/-- A successful `convert` call is a successful `_convert_impl` call. -/
theorem structureToCodeConvert_ok_impl {s : StructureLevel} {c : CodeLevel}
    (hc : structureToCodeConvert s = .ok c) : structureToCodeImpl codeTemplates s = .ok c := by
  unfold structureToCodeConvert at hc
  rcases h : s.validate with e | u <;> rw [h] at hc <;> dsimp only at hc
  · exact absurd hc (by simp)
  · exact hc

/-- The effect-chain parameters whose conversion supplies an input
component: `input_sound` then comes from the component and is built as a
literal. -/
def c6Params : ParameterLevel :=
  ⟨[("mix", ⟨"static", .vfloat (1/2), none, none, none, []⟩),
    ("room", ⟨"static", .vfloat (1/2), none, none, none, []⟩),
    ("input_sound", ⟨"static", .vstr "SoundIn.ar(0)", none, none, none, []⟩)], none⟩

/-- The `EFFECT_CHAIN` structure produced from `c6Params`. -/
def c6Structure : StructureLevel :=
  ((parameterToStructureConvert c6Params).toOption).getD ⟨.UNKNOWN, [], [], [], []⟩

/-- The code level produced from `c6Structure`. -/
def c6Code : CodeLevel :=
  ((structureToCodeConvert c6Structure).toOption).getD ⟨.UNKNOWN, "", [], none, []⟩

/-- C6 counterexample: for an `EFFECT_CHAIN` structure that supplies an
input component, the produced code level has *no* non-literal variable —
`input_sound` is built from the component with `is_literal = True` — so
"exactly one variable is non-literal" fails on the supplied-input
path. -/
theorem C6_effect_literal_counterexample :
    parameterToStructureConvert c6Params = .ok c6Structure
    ∧ c6Structure.structure_type = .EFFECT_CHAIN
    ∧ structureToCodeConvert c6Structure = .ok c6Code
    ∧ (c6Code.vars.map fun nv => (nv.1, nv.2.is_literal)) =
        [("mix", true), ("room", true), ("input_sound", true),
         ("freq", true), ("amp", true), ("duration", true), ("damp", true)]
    ∧ (c6Code.vars.filter fun nv => nv.2.is_literal = false) = [] := by
  refine ⟨?_, ?_, ?_, ?_, ?_⟩ <;> with_unfolding_all rfl

/-- C6 (amended): for every code level produced by Structure→Code
conversion from an `EFFECT_CHAIN` structure: when the structure supplies
an input component with a sound entry, every variable (including
`input_sound`) is a literal; only when the default input expression
`WhiteNoise.ar(0.2)` is used is there exactly one non-literal variable,
namely `input_sound`, all others literal. -/
theorem C6_effect_literal_amended (s : StructureLevel) (c : CodeLevel)
    (hty : s.structure_type = .EFFECT_CHAIN)
    (hc : structureToCodeConvert s = .ok c) :
    (componentDictEntry s "input" "sound" ≠ none →
      ∀ nv ∈ c.vars, nv.2.is_literal = true)
    ∧ (componentDictEntry s "input" "sound" = none →
      (c.vars.filter fun nv => nv.2.is_literal = false).map (fun nv => (nv.1, nv.2.value)) =
        [("input_sound", PyVal.vstr "WhiteNoise.ar(0.2)")]) := by
  have hv : c.vars = buildCodeVars s :=
    structureToCodeImpl_ok_vars (structureToCodeConvert_ok_impl hc)
  have hne : s.structure_type ≠ .SYNTH_DEF := by
    rw [hty]
    decide
  rw [hv]
  unfold buildCodeVars
  rw [if_neg hne, if_pos hty, if_pos hty]
  have hlit6 : ∀ nv ∈ addMissingVar (addMissingVar (addMissingVar
      (addMissingVar (addMissingVar (addMissingVar (effectChainVars s)
        "freq" (mkLitVar "freq" (.vfloat 440) "frequency"))
        "amp" (mkLitVar "amp" (.vfloat (1/2)) "amplitude"))
        "duration" (mkLitVar "duration" (.vfloat 1) "duration"))
        "mix" (mkLitVar "mix" (.vfloat (33/100)) "mix"))
        "room" (mkLitVar "room" (.vfloat (1/2)) "room"))
        "damp" (mkLitVar "damp" (.vfloat (1/2)) "damp"),
      nv.2.is_literal = true := by
    intro nv h
    rcases addMissingVar_mem h with h | rfl
    · rcases addMissingVar_mem h with h | rfl
      · rcases addMissingVar_mem h with h | rfl
        · rcases addMissingVar_mem h with h | rfl
          · rcases addMissingVar_mem h with h | rfl
            · rcases addMissingVar_mem h with h | rfl
              · exact effectChainVars_literal s nv h
              · rfl
            · rfl
          · rfl
        · rfl
      · rfl
    · rfl
  have hany : ∀ n : String, n ≠ "freq" → n ≠ "amp" → n ≠ "duration" → n ≠ "mix" →
      n ≠ "room" → n ≠ "damp" →
      (addMissingVar (addMissingVar (addMissingVar (addMissingVar (addMissingVar
        (addMissingVar (effectChainVars s)
          "freq" (mkLitVar "freq" (.vfloat 440) "frequency"))
          "amp" (mkLitVar "amp" (.vfloat (1/2)) "amplitude"))
          "duration" (mkLitVar "duration" (.vfloat 1) "duration"))
          "mix" (mkLitVar "mix" (.vfloat (33/100)) "mix"))
          "room" (mkLitVar "room" (.vfloat (1/2)) "room"))
          "damp" (mkLitVar "damp" (.vfloat (1/2)) "damp")).any (·.1 = n) =
        (effectChainVars s).any (·.1 = n) := by
    intro n h1 h2 h3 h4 h5 h6
    rw [addMissingVar_any_ne (fun h => h6 h.symm), addMissingVar_any_ne (fun h => h5 h.symm),
      addMissingVar_any_ne (fun h => h4 h.symm), addMissingVar_any_ne (fun h => h3 h.symm),
      addMissingVar_any_ne (fun h => h2 h.symm), addMissingVar_any_ne (fun h => h1 h.symm)]
  constructor
  · intro hin nv hmem
    rcases hsnd : componentDictEntry s "input" "sound" with _ | snd
    · exact absurd hsnd hin
    · have hany7 := hany "input_sound" (by decide) (by decide) (by decide) (by decide)
        (by decide) (by decide)
      rw [effectChainVars_input_some s snd hsnd] at hany7
      rw [addMissingVar_of_any hany7] at hmem
      exact hlit6 nv hmem
  · intro hin
    have hany7 := hany "input_sound" (by decide) (by decide) (by decide) (by decide)
      (by decide) (by decide)
    rw [effectChainVars_input_none s hin] at hany7
    rw [addMissingVar_of_not_any hany7, List.filter_append,
      List.filter_eq_nil_iff.mpr (fun nv hnv => by simp [hlit6 nv hnv])]
    simp

/-- Parameters for the C6 witness run: an effect chain with no supplied
input component, so the default non-literal `WhiteNoise.ar(0.2)` input
expression is used. -/
def c6WitnessParams : ParameterLevel :=
  ⟨[("mix", ⟨"static", .vfloat (1/2), none, none, none, []⟩),
    ("room", ⟨"static", .vfloat (1/2), none, none, none, []⟩)], none⟩

/-- The structure and code of the C6 witness run. -/
def c6WitnessStructure : StructureLevel :=
  ((parameterToStructureConvert c6WitnessParams).toOption).getD ⟨.UNKNOWN, [], [], [], []⟩

/-- The code level of the C6 witness run. -/
def c6WitnessCode : CodeLevel :=
  ((structureToCodeConvert c6WitnessStructure).toOption).getD ⟨.UNKNOWN, "", [], none, []⟩

/-- C6 witness: the amended law applied at the concrete default-input
run. -/
theorem C6_effect_literal_witness :
    (c6WitnessCode.vars.filter fun nv => nv.2.is_literal = false).map
      (fun nv => (nv.1, nv.2.value)) = [("input_sound", PyVal.vstr "WhiteNoise.ar(0.2)")] := by
  have h := (C6_effect_literal_amended c6WitnessStructure c6WitnessCode
    (by with_unfolding_all rfl) (by with_unfolding_all rfl)).2 (by with_unfolding_all rfl)
  exact h

/-- C1: for the intent `GENERATE_SOUND` / "440Hz sine wave" with empty
metadata and confidence 1.0, the pipeline produces the parameters
frequency = 440.0 Hz, amplitude = 0.5, duration = 1.0 s and
waveform = "sine"; then a `SYNTH_DEF` structure with exactly the
components oscillator, envelope, amplitude, output wired
oscillator→envelope→amplitude→output; and finally a code level whose
rendered text contains "440", "0.5" and "SinOsc". -/
theorem C1_scenarioA_pipeline :
    intentToParameterConvert scenarioAIntent = .ok scenarioAParams
    ∧ scenarioAParams.parameters.map (fun nv => (nv.1, nv.2.value, nv.2.unit)) =
        [("frequency", .vfloat 440, some "Hz"),
         ("amplitude", .vfloat (1/2), none),
         ("duration", .vfloat 1, some "s"),
         ("waveform", .vstr "sine", none)]
    ∧ parameterToStructureConvert scenarioAParams = .ok scenarioAStructure
    ∧ scenarioAStructure.structure_type = .SYNTH_DEF
    ∧ scenarioAStructure.components.map (·.1) = ["oscillator", "envelope", "amplitude", "output"]
    ∧ scenarioAStructure.connections =
        [("oscillator", "envelope"), ("envelope", "amplitude"), ("amplitude", "output")]
    ∧ structureToCodeConvert scenarioAStructure = .ok scenarioACode
    ∧ scenarioACode.to_code = .ok scenarioARendered
    ∧ strContains scenarioARendered "440" = true
    ∧ strContains scenarioARendered "0.5" = true
    ∧ strContains scenarioARendered "SinOsc" = true := by
  set_option maxRecDepth 100000 in
  refine ⟨?_, ?_, ?_, ?_, ?_, ?_, ?_, ?_, ?_, ?_, ?_⟩ <;> with_unfolding_all rfl

/-! ### Adaptive cache manager (`synthesis/adaptive_cache_manager.py`)

`time.time()` and the psutil process-memory measurement are modelled as
explicit rational oracle arguments `now` and `measured`; invoking a
callback is modelled by returning the list of callbacks invoked, in
order (callbacks are identified by natural numbers). -/

/-- The `stats` dictionary of `AdaptiveCacheManager`. -/
structure ACMStats where
  total_checks : Nat
  high_memory_events : Nat
  critical_memory_events : Nat
  cache_clears : Nat
  last_memory_usage : Rat
  peak_memory_usage : Rat
deriving DecidableEq

/-- The observable state of `AdaptiveCacheManager` (the monitor thread
and logging are omitted). -/
structure ACMState where
  high_memory_threshold : Rat
  low_memory_threshold : Rat
  critical_memory_threshold : Rat
  check_interval : Rat
  cache_clear_callbacks : List Nat
  current_memory_usage : Rat
  last_check_time : Rat
  stats : ACMStats
deriving DecidableEq

/-- `AdaptiveCacheManager.__init__` with its default arguments. -/
def ACMState.init : ACMState :=
  ⟨85/100, 65/100, 95/100, 60, [], 0, 0, ⟨0, 0, 0, 0, 0, 0⟩⟩

/-- `register_cache_clear_callback`: appends the callback unless it is
already registered. -/
def registerCacheClearCallback (st : ACMState) (cb : Nat) : ACMState :=
  if st.cache_clear_callbacks.contains cb then st
  else { st with cache_clear_callbacks := st.cache_clear_callbacks ++ [cb] }

/-- `_clear_all_caches`: returns the new state and the list of callbacks
invoked, in order.  With no registered callbacks it returns early — in
particular it does not increment `cache_clears`. -/
def clearAllCaches (st : ACMState) : ACMState × List Nat :=
  if st.cache_clear_callbacks.isEmpty then (st, [])
  else
    ({ st with stats :=
        { st.stats with cache_clears := st.stats.cache_clears + 1 } },
      st.cache_clear_callbacks)

/-- `check_memory_usage`.  `now` is the oracle for `time.time()` and
`measured` the oracle for the measured process-memory fraction
`memory_info.rss / system_memory.total`.  Returns the float result, the
new state and the callbacks invoked. -/
def checkMemoryUsage (st : ACMState) (now measured : Rat) :
    Rat × ACMState × List Nat :=
  if now - st.last_check_time < 5 then (st.current_memory_usage, st, [])
  else
    let st1 : ACMState := { st with
      last_check_time := now
      current_memory_usage := measured
      stats := { st.stats with
        total_checks := st.stats.total_checks + 1
        last_memory_usage := measured
        peak_memory_usage :=
          if measured > st.stats.peak_memory_usage then measured
          else st.stats.peak_memory_usage } }
    if measured ≥ st.critical_memory_threshold then
      (measured, clearAllCaches { st1 with stats :=
        { st1.stats with critical_memory_events :=
            st1.stats.critical_memory_events + 1 } })
    else if measured ≥ st.high_memory_threshold then
      (measured, clearAllCaches { st1 with stats :=
        { st1.stats with high_memory_events :=
            st1.stats.high_memory_events + 1 } })
    else (measured, st1, [])

/-- A manager in its initial configuration: no registered callbacks. -/
def c7NoCbState : ACMState := ACMState.init

/-- C7 counterexample: `check_memory_usage` on a manager with no
registered callbacks, ten seconds after the last check, with measured
fraction 0.96 at or above the critical threshold 0.95: the measurement
is performed (`total_checks` and `critical_memory_events` increment) yet
`cache_clears` stays 0 instead of incrementing by exactly 1, because
`_clear_all_caches` returns early when the callback list is empty. -/
theorem C7_memory_pressure_counterexample :
    ¬ ((10 : Rat) - c7NoCbState.last_check_time < 5)
    ∧ (96/100 : Rat) ≥ c7NoCbState.critical_memory_threshold
    ∧ (checkMemoryUsage c7NoCbState 10 (96/100)).2.1.stats.total_checks = 1
    ∧ (checkMemoryUsage c7NoCbState 10 (96/100)).2.1.stats.critical_memory_events = 1
    ∧ (checkMemoryUsage c7NoCbState 10 (96/100)).2.1.stats.cache_clears = 0 := by
  refine ⟨?_, ?_, ?_, ?_, ?_⟩ <;> with_unfolding_all decide

/-- C7 (amended): on a measured check (at least 5 seconds after the
previous one), with the high threshold at most the critical one: at or
above the critical threshold, the registered callbacks are invoked in
registration order, `critical_memory_events` increments by exactly 1,
`high_memory_events` is unchanged, and `cache_clears` increments by
exactly 1 when at least one callback is registered and is unchanged
otherwise; at or above the high threshold but below critical, the same
with `high_memory_events` incrementing instead; below the high
threshold, no callback is invoked and no event counter changes.
Registration keeps the callback list duplicate-free, so an invoked
callback is invoked exactly once. -/
theorem C7_memory_pressure_amended (st : ACMState) (now measured : Rat)
    (hm : ¬ (now - st.last_check_time < 5))
    (hth : st.high_memory_threshold ≤ st.critical_memory_threshold) :
    (measured ≥ st.critical_memory_threshold →
      (checkMemoryUsage st now measured).2.2 = st.cache_clear_callbacks
      ∧ (checkMemoryUsage st now measured).2.1.stats.critical_memory_events
          = st.stats.critical_memory_events + 1
      ∧ (checkMemoryUsage st now measured).2.1.stats.high_memory_events
          = st.stats.high_memory_events
      ∧ (checkMemoryUsage st now measured).2.1.stats.cache_clears
          = st.stats.cache_clears
            + (if st.cache_clear_callbacks.isEmpty then 0 else 1))
    ∧ (measured < st.critical_memory_threshold →
        measured ≥ st.high_memory_threshold →
      (checkMemoryUsage st now measured).2.2 = st.cache_clear_callbacks
      ∧ (checkMemoryUsage st now measured).2.1.stats.high_memory_events
          = st.stats.high_memory_events + 1
      ∧ (checkMemoryUsage st now measured).2.1.stats.critical_memory_events
          = st.stats.critical_memory_events
      ∧ (checkMemoryUsage st now measured).2.1.stats.cache_clears
          = st.stats.cache_clears
            + (if st.cache_clear_callbacks.isEmpty then 0 else 1))
    ∧ (measured < st.high_memory_threshold →
      (checkMemoryUsage st now measured).2.2 = []
      ∧ (checkMemoryUsage st now measured).2.1.stats.critical_memory_events
          = st.stats.critical_memory_events
      ∧ (checkMemoryUsage st now measured).2.1.stats.high_memory_events
          = st.stats.high_memory_events
      ∧ (checkMemoryUsage st now measured).2.1.stats.cache_clears
          = st.stats.cache_clears)
    ∧ (∀ s : ACMState, ∀ cb : Nat, s.cache_clear_callbacks.Nodup →
        ((registerCacheClearCallback s cb).cache_clear_callbacks).Nodup) := by
  refine ⟨fun hcrit => ?_, fun hncrit hhigh => ?_, fun hlow => ?_,
    fun s cb hnd => ?_⟩
  · unfold checkMemoryUsage
    rw [if_neg hm]
    dsimp only
    rw [if_pos hcrit]
    unfold clearAllCaches
    by_cases he : st.cache_clear_callbacks.isEmpty
    · rw [if_pos he, if_pos he]
      have : st.cache_clear_callbacks = [] := by simpa using he
      simp [this]
    · rw [if_neg he, if_neg he]
      simp
  · unfold checkMemoryUsage
    rw [if_neg hm]
    dsimp only
    rw [if_neg (not_le.mpr hncrit), if_pos hhigh]
    unfold clearAllCaches
    by_cases he : st.cache_clear_callbacks.isEmpty
    · rw [if_pos he, if_pos he]
      have : st.cache_clear_callbacks = [] := by simpa using he
      simp [this]
    · rw [if_neg he, if_neg he]
      simp
  · unfold checkMemoryUsage
    rw [if_neg hm]
    dsimp only
    rw [if_neg (not_le.mpr (lt_of_lt_of_le hlow hth)),
      if_neg (not_le.mpr hlow)]
    simp
  · unfold registerCacheClearCallback
    by_cases hc : s.cache_clear_callbacks.contains cb
    · rw [if_pos hc]
      exact hnd
    · rw [if_neg hc]
      have hmem : cb ∉ s.cache_clear_callbacks := by simpa using hc
      simp [List.nodup_append, hnd, hmem]

/-- The initial manager with one callback registered. -/
def c7CbState : ACMState := registerCacheClearCallback ACMState.init 0

/-- C7 witness: the amended law at the concrete one-callback manager,
ten seconds after the last check, measured fraction 0.96 above the
critical threshold: the callback is invoked once,
`critical_memory_events` becomes 1, and `cache_clears` becomes 1. -/
theorem C7_memory_pressure_witness :
    (checkMemoryUsage c7CbState 10 (96/100)).2.2 = [0]
    ∧ (checkMemoryUsage c7CbState 10 (96/100)).2.1.stats.critical_memory_events = 1
    ∧ (checkMemoryUsage c7CbState 10 (96/100)).2.1.stats.cache_clears = 1 := by
  have h := (C7_memory_pressure_amended c7CbState 10 (96/100)
    (by with_unfolding_all decide) (by with_unfolding_all decide)).1
    (by with_unfolding_all decide)
  obtain ⟨h1, h2, h3, h4⟩ := h
  refine ⟨?_, ?_, ?_⟩
  · rw [h1]
    with_unfolding_all rfl
  · rw [h2]
    with_unfolding_all rfl
  · rw [h4]
    with_unfolding_all rfl

/-- C10: a call less than 5 seconds after the previous measured check
returns the previously measured usage value and leaves the entire state
unchanged — callback registry, every stats entry and the last-check
time — and invokes no callback, regardless of the configured
`check_interval` and of the measured value at that moment. -/
theorem C10_min_interval_short_circuit (st : ACMState) (now measured : Rat)
    (h : now - st.last_check_time < 5) :
    checkMemoryUsage st now measured = (st.current_memory_usage, st, []) := by
  unfold checkMemoryUsage
  rw [if_pos h]

/-- C10 witness: a second check three seconds after initialization
returns the previous value 0 and leaves the initial state intact. -/
theorem C10_min_interval_witness :
    checkMemoryUsage ACMState.init 3 (99/100) = (0, ACMState.init, []) := by
  have h := C10_min_interval_short_circuit ACMState.init 3 (99/100)
    (by with_unfolding_all decide)
  rw [h]
  with_unfolding_all rfl

/-! ### Precompiled patterns (`synthesis/precompiled_patterns.py`)

The md5 digest of `_calculate_pattern_id` is modelled by its preimage
string `pattern_type ++ ":" ++ source_code`: the identifier is a
deterministic function of exactly those two fields, which is all the
theorems below use (digest collisions are ignored).  Python float
arithmetic in the constant-folding pass is idealized as exact rational
arithmetic (so e.g. `0.1+0.2` folds to `0.3`, where IEEE-754 doubles
give `0.30000000000000004`); no theorem below depends on that corner.
The SQLite table is modelled as a list of rows in rowid order and
`time.time()` as an explicit oracle argument. -/

/-- Python whitespace, for `str.strip` and the regex class `\s`. -/
def pyIsSpace (c : Char) : Bool :=
  c = ' ' || c = '\t' || c = '\n' || c = '\r' || c = Char.ofNat 11 || c = Char.ofNat 12

/-- Python `str.strip()` with no argument. -/
def pyStrip (s : String) : String :=
  String.mk (((s.toList.dropWhile pyIsSpace).reverse.dropWhile pyIsSpace).reverse)

/-- One of the four operator characters of the folding regex of
`_optimize_synth_def`. -/
def isOpCh (c : Char) : Bool :=
  c = '*' || c = '+' || c = '-' || c = '/'

/-- Greedy match of the number part `\d+(?:\.\d+)?` at the head of the
input; returns the matched characters and the rest. -/
def matchNumber (l : List Char) : Option (List Char × List Char) :=
  let d := l.takeWhile Char.isDigit
  let r := l.dropWhile Char.isDigit
  if d.isEmpty then none
  else
    match r with
    | '.' :: r2 =>
      let d2 := r2.takeWhile Char.isDigit
      let r3 := r2.dropWhile Char.isDigit
      if d2.isEmpty then some (d, r) else some (d ++ '.' :: d2, r3)
    | _ => some (d, r)

/-- Match of the folding regex at the head of the input: a number,
optional whitespace, an operator character, optional whitespace, a
number.  Returns the full match (group 1), the operator (group 2), and
the rest. -/
def matchConstOp (l : List Char) : Option (List Char × Char × List Char) :=
  match matchNumber l with
  | none => none
  | some (n1, r1) =>
    let s1 := r1.takeWhile pyIsSpace
    let r2 := r1.dropWhile pyIsSpace
    match r2 with
    | [] => none
    | c :: r3 =>
      if isOpCh c then
        let s2 := r3.takeWhile pyIsSpace
        let r4 := r3.dropWhile pyIsSpace
        match matchNumber r4 with
        | none => none
        | some (n2, r5) => some (n1 ++ s1 ++ c :: (s2 ++ n2), c, r5)
      else none

/-- `re.findall` for the folding regex: leftmost, non-overlapping
matches.  Fuel is the input length; a match consumes at least one
character, so the fuel never runs out. -/
def findConstOpsGo : Nat → List Char → List (String × Char)
  | 0, _ => []
  | _, [] => []
  | fuel + 1, l =>
    match matchConstOp l with
    | some (m, c, rest) => (String.mk m, c) :: findConstOpsGo fuel rest
    | none => findConstOpsGo fuel l.tail

/-- The `const_ops` list of `_optimize_synth_def`, computed once on the
original code. -/
def findConstOps (code : String) : List (String × Char) :=
  findConstOpsGo code.toList.length code.toList

/-- Decimal digit characters to a natural number. -/
def digitsToNat (l : List Char) : Nat :=
  l.foldl (fun n c => n * 10 + (c.toNat - 48)) 0

/-- Python `float()` on a decimal literal `digits[.digits]`, idealized
as an exact rational. -/
def parseFloatChars (l : List Char) : Rat :=
  let ip := l.takeWhile Char.isDigit
  let r := l.dropWhile Char.isDigit
  match r with
  | '.' :: fr => (digitsToNat ip : Rat) + (digitsToNat fr : Rat) / ((10 : Rat) ^ fr.length)
  | _ => (digitsToNat ip : Rat)

/-- The operand left of the operator in a full regex match — the loop
body's `re.split` on the operator with its adjacent whitespace. -/
def opLeft (l : List Char) : List Char :=
  l.takeWhile fun c => c.isDigit || c = '.'

/-- The operand right of the operator in a full regex match. -/
def opRight (l : List Char) : List Char :=
  (l.reverse.takeWhile fun c => c.isDigit || c = '.').reverse

/-- `op_funcs`: `operator.add/sub/mul/truediv` keyed by the operator
character. -/
def applyOp (c : Char) (l r : Rat) : Rat :=
  if c = '+' then l + r
  else if c = '-' then l - r
  else if c = '*' then l * r
  else l / r

/-- The replacement string for a folded result: integral values print as
Python ints (the `int(result)` collapse), others with the float repr. -/
def constResultStr (x : Rat) : String :=
  if x.den = 1 then toString x.num else pyFloatStr x

/-- One iteration of the folding loop of `_optimize_synth_def`: parse
the two operands out of the full match, skip division by zero, and
replace every occurrence of the matched text in the evolving code. -/
def foldConstOp (code : String) (m : String × Char) : String :=
  let l := parseFloatChars (opLeft m.1.toList)
  let r := parseFloatChars (opRight m.1.toList)
  if m.2 = '/' && r = 0 then code
  else pyReplace code m.1 (constResultStr (applyOp m.2 l r))

/-- `PatternCompiler._optimize_synth_def`: constant arithmetic folding
over the matches found in the original code. -/
def optimizeSynthDef (code : String) : String :=
  (findConstOps code).foldl foldConstOp code

/-- `PatternCompiler._optimize_pattern_code` (identity in this
version). -/
def optimizePatternCode (code : String) : String := code

/-- `PatternCompiler._optimize_effect_code` (identity in this
version). -/
def optimizeEffectCode (code : String) : String := code

/-- `PatternCompiler._optimize_sc_code`: strip, then the per-type
pass. -/
def optimizeScCode (source_code pattern_type : String) : String :=
  let code := pyStrip source_code
  if pattern_type = "synth_def" then optimizeSynthDef code
  else if pattern_type = "pattern" then optimizePatternCode code
  else if pattern_type = "effect" then optimizeEffectCode code
  else code

/-- `PrecompiledPattern._calculate_pattern_id`: the md5 digest of
`pattern_type:source_code`, modelled by its preimage. -/
def patternId (pattern_type source_code : String) : String :=
  pattern_type ++ ":" ++ source_code

/-- `PrecompiledPattern`, the compiled pattern object. -/
structure PrecompiledPattern where
  name : String
  pattern_type : String
  source_code : String
  compiled_code : String
  metadata : List (String × PyVal)
  compilation_time : Rat
  pattern_id : String

/-- `PatternCompiler.compile_pattern` (logging and the compilation
statistics, which do not affect the returned pattern, are omitted;
`now` is the `time.time()` oracle at construction, stored by
`PrecompiledPattern.__init__` as `compilation_time`). -/
def compilePattern (name pattern_type source_code : String)
    (metadata : List (String × PyVal)) (now : Rat) : PrecompiledPattern :=
  { name := name
    pattern_type := pattern_type
    source_code := source_code
    compiled_code := optimizeScCode source_code pattern_type
    metadata := metadata
    compilation_time := now
    pattern_id := patternId pattern_type source_code }

/-- A row of the `precompiled_patterns` table, in rowid order; the JSON
`metadata` column is kept structural. -/
structure PatternRow where
  name : String
  pattern_type : String
  pattern_id : String
  source_code : String
  compiled_code : String
  metadata : List (String × PyVal)
  compilation_time : Rat
  created_at : Rat
  last_used_at : Option Rat

/-- The UPDATE branch of `save_pattern`, applied to each row with the
matching `pattern_id` (keeping `pattern_id` and `created_at`, touching
`last_used_at`). -/
def updateRow (p : PrecompiledPattern) (now : Rat) (r : PatternRow) : PatternRow :=
  if r.pattern_id = p.pattern_id then
    { r with
      name := p.name
      pattern_type := p.pattern_type
      source_code := p.source_code
      compiled_code := p.compiled_code
      metadata := p.metadata
      compilation_time := p.compilation_time
      last_used_at := some now }
  else r

/-- The row inserted by the INSERT branch of `save_pattern`:
`created_at` and `last_used_at` are both the current time. -/
def insertedRow (p : PrecompiledPattern) (now : Rat) : PatternRow :=
  ⟨p.name, p.pattern_type, p.pattern_id, p.source_code, p.compiled_code,
    p.metadata, p.compilation_time, now, some now⟩

/-- `PatternManager.save_pattern`: check for an existing row with the
same `pattern_id`, then UPDATE it or INSERT a new row. -/
def savePattern (store : List PatternRow) (p : PrecompiledPattern) (now : Rat) :
    List PatternRow :=
  if store.any fun r => r.pattern_id = p.pattern_id then store.map (updateRow p now)
  else store ++ [insertedRow p now]

/-- The update of `save_pattern` never changes a row's `pattern_id`. -/
theorem updateRow_pid (p : PrecompiledPattern) (now : Rat) (r : PatternRow) :
    (updateRow p now r).pattern_id = r.pattern_id := by
  unfold updateRow
  split <;> rfl

/-- The UPDATE branch preserves the number of rows carrying any given
`pattern_id`. -/
theorem countP_map_updateRow (store : List PatternRow) (p : PrecompiledPattern)
    (now : Rat) (pid : String) :
    (store.map (updateRow p now)).countP (fun r => r.pattern_id = pid)
      = store.countP (fun r => r.pattern_id = pid) := by
  induction store with
  | nil => rfl
  | cons a t ih => simp [List.countP_cons, ih, updateRow_pid]

/-- How `save_pattern` changes the number of rows with the saved
pattern's identifier: unchanged on the UPDATE path, one more on the
INSERT path. -/
theorem savePattern_countP (store : List PatternRow) (p : PrecompiledPattern)
    (now : Rat) (pid : String) (hp : p.pattern_id = pid) :
    (savePattern store p now).countP (fun r => r.pattern_id = pid)
      = if store.any (fun r => r.pattern_id = pid)
        then store.countP (fun r => r.pattern_id = pid)
        else store.countP (fun r => r.pattern_id = pid) + 1 := by
  subst hp
  unfold savePattern
  by_cases h : store.any (fun r => r.pattern_id = p.pattern_id)
  · rw [if_pos h, if_pos h, countP_map_updateRow]
  · rw [if_neg h, if_neg h, List.countP_append]
    simp [insertedRow]

/-- A row with a given `pattern_id` exists iff the count of such rows is
positive. -/
theorem any_pid_iff (store : List PatternRow) (pid : String) :
    (store.any (fun r => r.pattern_id = pid)) = true
      ↔ 0 < store.countP (fun r => r.pattern_id = pid) := by
  rw [List.any_eq_true, List.countP_pos_iff]

/-- Saving twice with the same identifier into a store satisfying the
table's UNIQUE constraint leaves exactly one row with that
identifier. -/
theorem savePattern_twice_countP (store : List PatternRow)
    (p q : PrecompiledPattern) (now1 now2 : Rat) (pid : String)
    (hp : p.pattern_id = pid) (hq : q.pattern_id = pid)
    (hu : store.countP (fun r => r.pattern_id = pid) ≤ 1) :
    (savePattern (savePattern store p now1) q now2).countP
      (fun r => r.pattern_id = pid) = 1 := by
  have h1 := savePattern_countP store p now1 pid hp
  have h2 := savePattern_countP (savePattern store p now1) q now2 pid hq
  by_cases h0 : store.any (fun r => r.pattern_id = pid)
  · have hpos := (any_pid_iff store pid).mp h0
    rw [if_pos h0] at h1
    have hanys : (savePattern store p now1).any (fun r => r.pattern_id = pid) = true := by
      rw [any_pid_iff]
      omega
    rw [if_pos hanys] at h2
    omega
  · have hz : store.countP (fun r => r.pattern_id = pid) = 0 := by
      rcases Nat.eq_zero_or_pos (store.countP (fun r => r.pattern_id = pid)) with h | h
      · exact h
      · exact absurd ((any_pid_iff store pid).mpr h) h0
    rw [if_neg h0] at h1
    have hanys : (savePattern store p now1).any (fun r => r.pattern_id = pid) = true := by
      rw [any_pid_iff]
      omega
    rw [if_pos hanys] at h2
    omega

/-- C3: compiling twice with identical `(name, pattern_type,
source_code, metadata)` yields the same deterministic identifier
`md5(pattern_type:source_code)` (modelled by its preimage) and equal
compiled code; and saving both results into a store that satisfies the
table's UNIQUE constraint on `pattern_id` (the hypothesis) leaves
exactly one row with that identifier — the second save updates rather
than inserts. -/
theorem C3_compile_save_idempotent (name pattern_type source_code : String)
    (metadata : List (String × PyVal)) (t1 t2 now1 now2 : Rat)
    (store : List PatternRow)
    (hu : store.countP (fun r => r.pattern_id = patternId pattern_type source_code) ≤ 1) :
    (compilePattern name pattern_type source_code metadata t1).pattern_id
        = patternId pattern_type source_code
    ∧ (compilePattern name pattern_type source_code metadata t1).pattern_id
        = (compilePattern name pattern_type source_code metadata t2).pattern_id
    ∧ (compilePattern name pattern_type source_code metadata t1).compiled_code
        = (compilePattern name pattern_type source_code metadata t2).compiled_code
    ∧ (savePattern (savePattern store
          (compilePattern name pattern_type source_code metadata t1) now1)
          (compilePattern name pattern_type source_code metadata t2) now2).countP
        (fun r => r.pattern_id = patternId pattern_type source_code) = 1 :=
  ⟨rfl, rfl, rfl,
    savePattern_twice_countP store _ _ now1 now2 _ rfl rfl hu⟩

/-- C3 witness: compiling and saving the same oscillator source twice
into an empty store leaves exactly one row. -/
theorem C3_compile_save_idempotent_witness :
    ([] : List PatternRow).countP
        (fun r => r.pattern_id = patternId "synth_def" "SinOsc.ar(220 * 2)") ≤ 1
    ∧ (savePattern (savePattern []
          (compilePattern "osc" "synth_def" "SinOsc.ar(220 * 2)" [] 1) 3)
          (compilePattern "osc" "synth_def" "SinOsc.ar(220 * 2)" [] 2) 4).countP
        (fun r => r.pattern_id = patternId "synth_def" "SinOsc.ar(220 * 2)") = 1 :=
  ⟨by decide,
    (C3_compile_save_idempotent "osc" "synth_def" "SinOsc.ar(220 * 2)" [] 1 2 3 4 []
      (by decide)).2.2.2⟩

/-- The `ORDER BY last_used_at IS NULL, last_used_at DESC` comparison of
the pattern queries: rows with a timestamp first, newest first, and
never-used rows last. -/
def rowLE (a b : PatternRow) : Bool :=
  match a.last_used_at, b.last_used_at with
  | some x, some y => decide (y ≤ x)
  | some _, none => true
  | none, some _ => false
  | none, none => true

/-- `rowLE` as a relation, for sorting. -/
def rowRel : PatternRow → PatternRow → Prop := fun a b => rowLE a b = true

instance : DecidableRel rowRel := fun a b =>
  inferInstanceAs (Decidable (rowLE a b = true))

instance : IsTotal PatternRow rowRel := by
  constructor
  intro a b
  unfold rowRel rowLE
  rcases a.last_used_at with _ | x <;> rcases b.last_used_at with _ | y <;> simp
  exact le_total y x

instance : IsTrans PatternRow rowRel := by
  constructor
  intro a b c hab hbc
  unfold rowRel rowLE at *
  rcases ha : a.last_used_at with _ | x <;> rw [ha] at hab <;>
    rcases hb : b.last_used_at with _ | y <;> rw [hb] at hab hbc <;>
    rcases hc : c.last_used_at with _ | z <;> rw [hc] at hbc <;> simp_all
  exact le_trans hbc hab

/-- Construction of a `PrecompiledPattern` from a fetched row, as in the
loop body of `find_patterns_by_type`: the identifier is recomputed by
the constructor, and a falsy (zero) stored compilation time leaves the
construction-time default, the `time.time()` oracle `now`. -/
def rowToPattern (now : Rat) (r : PatternRow) : PrecompiledPattern :=
  { name := r.name
    pattern_type := r.pattern_type
    source_code := r.source_code
    compiled_code := r.compiled_code
    metadata := r.metadata
    compilation_time := if r.compilation_time = 0 then now else r.compilation_time
    pattern_id := patternId r.pattern_type r.source_code }

/-- The rows produced by the SELECT of `find_patterns_by_type`: rows of
the requested type in the query order (timestamped first, newest first,
never-used last), capped by `LIMIT 100`.  SQLite leaves the order of
ties unspecified; it is modelled by a stable insertion sort, and no
theorem below depends on the choice. -/
def selectRowsByType (store : List PatternRow) (pattern_type : String) :
    List PatternRow :=
  (List.insertionSort rowRel (store.filter fun r => r.pattern_type = pattern_type)).take 100

/-- `PatternManager.find_patterns_by_type`: the constructed patterns and
the store after the bulk `last_used_at` touch of the returned rows. -/
def findPatternsByType (store : List PatternRow) (pattern_type : String) (now : Rat) :
    List PrecompiledPattern × List PatternRow :=
  let rows := selectRowsByType store pattern_type
  let ids := rows.map (fun r => r.pattern_id)
  (rows.map (rowToPattern now),
   if ids.isEmpty then store
   else store.map fun r =>
     if ids.contains r.pattern_id then { r with last_used_at := some now } else r)

/-- C9: `find_patterns_by_type` returns at most 100 patterns, built from
the selected rows; the selected rows are sorted newest-first with
never-used rows last (`rowLE`), and together with the rows left behind
they are exactly the rows of the requested type, every returned row
ranking at least as high as every row left behind — the returned
entries are the most recently used ones. -/
theorem C9_find_patterns_limit (store : List PatternRow) (pattern_type : String) (now : Rat) :
    (findPatternsByType store pattern_type now).1.length ≤ 100
    ∧ (findPatternsByType store pattern_type now).1
        = (selectRowsByType store pattern_type).map (rowToPattern now)
    ∧ List.Sorted rowRel (selectRowsByType store pattern_type)
    ∧ ∃ rest : List PatternRow,
        (selectRowsByType store pattern_type ++ rest).Perm
          (store.filter fun r => r.pattern_type = pattern_type)
        ∧ ∀ a ∈ selectRowsByType store pattern_type, ∀ b ∈ rest, rowRel a b := by
  have hs := List.sorted_insertionSort rowRel (store.filter fun r => r.pattern_type = pattern_type)
  refine ⟨?_, rfl, ?_, ?_⟩
  · show ((selectRowsByType store pattern_type).map (rowToPattern now)).length ≤ 100
    rw [List.length_map]
    exact List.length_take_le _ _
  · exact List.Pairwise.sublist (List.take_sublist _ _) hs
  · refine ⟨(List.insertionSort rowRel (store.filter fun r => r.pattern_type = pattern_type)).drop 100, ?_, ?_⟩
    · show ((List.insertionSort rowRel _).take 100 ++ (List.insertionSort rowRel _).drop 100).Perm _
      rw [List.take_append_drop]
      exact List.perm_insertionSort rowRel _
    · have hp : List.Pairwise rowRel
          ((List.insertionSort rowRel (store.filter fun r => r.pattern_type = pattern_type)).take 100
            ++ (List.insertionSort rowRel (store.filter fun r => r.pattern_type = pattern_type)).drop 100) := by
        rw [List.take_append_drop]
        exact hs
      exact (List.pairwise_append.mp hp).2.2

/-! ### Memoized converters (`representation/optimized_converter.py`)

`MemoizedConverter._memoize_function` wraps a conversion function in a
`functools.lru_cache`.  The cache is modelled by its key list in
most-recently-used-first order (keys are the canonical argument
encodings, kept abstract as strings); the wrapper's `time.time()`
measurement of the cached call is the explicit oracle `elapsed`.  The
wrapped function body — which `lru_cache` runs exactly when the key is
absent — increments `cache_misses`; the wrapper then increments
`cache_hits` and `total_time_saved` iff the measured elapsed time is
under 1 ms (0.001 s). -/

/-- The counter state of `MemoizedConverter`, together with the key list
of the `lru_cache` of its memoized conversion function. -/
structure MemoState where
  cache : List String
  cache_size : Nat
  cache_stats : Bool
  cache_hits : Nat
  cache_misses : Nat
  total_time_saved : Rat
deriving DecidableEq

/-- One call through the memoized wrapper with cache key `k`: `lru_cache`
runs the body (incrementing `cache_misses` when stats are on) iff `k` is
absent, and refreshes the key's recency; the wrapper then classifies the
call as a hit by the elapsed-time heuristic. -/
def memoizedCall (st : MemoState) (k : String) (elapsed : Rat) : MemoState :=
  let present := st.cache.contains k
  let cacheAfter :=
    if present then k :: st.cache.erase k
    else (k :: st.cache).take st.cache_size
  let misses1 := if st.cache_stats && !present then st.cache_misses + 1 else st.cache_misses
  if st.cache_stats && decide (elapsed < 1/1000) then
    { st with
      cache := cacheAfter
      cache_misses := misses1
      cache_hits := st.cache_hits + 1
      total_time_saved := st.total_time_saved + 1/100 }
  else
    { st with
      cache := cacheAfter
      cache_misses := misses1 }

/-- `MemoizedConverter.get_cache_stats`. -/
def getCacheStats (st : MemoState) : List (String × PyVal) :=
  if st.cache_stats = false then [("enabled", PyVal.vbool false)]
  else
    let total := st.cache_hits + st.cache_misses
    let rate : Rat := if 0 < total then (st.cache_hits : Rat) / (total : Rat) else 0
    [("enabled", PyVal.vbool true),
     ("hits", PyVal.vint st.cache_hits),
     ("misses", PyVal.vint st.cache_misses),
     ("total_calls", PyVal.vint total),
     ("hit_rate", PyVal.vfloat rate),
     ("time_saved_sec", PyVal.vfloat st.total_time_saved)]

/-- A stats-enabled memoized converter whose cache already holds the
key `"k"`. -/
def c8State : MemoState := ⟨["k"], 128, true, 0, 0, 0⟩

/-- C8 counterexample: with the key `"k"` already present in the cache,
a call whose measured elapsed time is 10 ms does not increment the hit
counter, while the very same call measured at 0.5 ms does — the
classification is a function of call latency, not of the cache contents
and the key. -/
theorem C8_hit_inference_counterexample :
    c8State.cache.contains "k" = true
    ∧ (memoizedCall c8State "k" (1/100)).cache_hits = 0
    ∧ (memoizedCall c8State "k" (1/2000)).cache_hits = 1 := by
  refine ⟨?_, ?_, ?_⟩ <;> with_unfolding_all rfl

/-- C8 (amended): with statistics enabled, the miss counter increments
exactly when the key is absent from the cache (the wrapped body runs),
but the hit counter and the saved-time total increment exactly when the
measured elapsed time of the call is below 1 ms — a latency-based
inference that is independent of whether the key was present. -/
theorem C8_hit_inference_amended (st : MemoState) (k : String) (e : Rat)
    (hs : st.cache_stats = true) :
    (memoizedCall st k e).cache_misses
        = st.cache_misses + (if st.cache.contains k then 0 else 1)
    ∧ (memoizedCall st k e).cache_hits
        = st.cache_hits + (if e < 1/1000 then 1 else 0)
    ∧ (memoizedCall st k e).total_time_saved
        = st.total_time_saved + (if e < 1/1000 then (1 : Rat)/100 else 0) := by
  unfold memoizedCall
  dsimp only
  by_cases he : e < 1/1000 <;> by_cases hp : st.cache.contains k <;>
    simp_all [-one_div, -not_lt]

/-- A stats-enabled memoized converter with an empty cache. -/
def c8WitnessState : MemoState := ⟨[], 128, true, 0, 0, 0⟩

/-- C8 witness: the amended law at a fast miss on an empty cache — the
body runs (one miss) and the sub-millisecond latency is classified as a
hit at the same time. -/
theorem C8_hit_inference_witness :
    c8WitnessState.cache_stats = true
    ∧ (memoizedCall c8WitnessState "k" (1/2000)).cache_misses = 1
    ∧ (memoizedCall c8WitnessState "k" (1/2000)).cache_hits = 1 := by
  have h := C8_hit_inference_amended c8WitnessState "k" (1/2000) rfl
  refine ⟨rfl, ?_, ?_⟩
  · rw [h.1]
    with_unfolding_all rfl
  · rw [h.2.1]
    with_unfolding_all rfl

end Spaco
